import Mathlib

/-!
Verification of the e-commerce backend (`src/backend/app.py`).

The development shallowly embeds the Flask service: JSON payloads become the
inductive `Json` (numeric literals are modelled as integers; the serialization
format is allowed to normalize numeric types), the two database tables become
lists of row structures, and each HTTP handler becomes a Lean function that
mirrors the Python control flow statement by statement, including the broad
`except Exception` blocks (modelled by explicit error outcomes) and the
connection bookkeeping (whether the per-request connection was opened and
whether it was closed before the handler returned).

`json.dumps` / `json.loads` are embedded concretely: `dumps` reproduces
CPython's default serializer (`ensure_ascii=True`, separators `", "` and
`": "`, `\uXXXX` escapes including surrogate pairs), and `loads` is a strict
recursive-descent scanner over the same grammar restricted to the value domain
of `Json` (no floats; `NaN`/`Infinity` and number forms with `.`/`e` are out of
the modelled domain, as are lone-surrogate escapes, which Lean `Char` cannot
represent).  The round-trip `loads (dumps j) = some j` is proved for every
`Json` value.
-/

namespace ECom

/-- A Python value as delivered by `request.get_json()` / stored via
`json.dumps`.  Numeric literals are modelled as integers (`§3` of the spec
allows the serialization format to normalize numeric types). -/
inductive Json where
  | null : Json
  | bool : Bool → Json
  | int : Int → Json
  | str : String → Json
  | arr : List Json → Json
  | obj : List (String × Json) → Json

/-- Python truthiness (`bool(v)`) on a JSON value: `None`, `False`, `0`, `""`,
`[]` and `{}` are falsy, everything else truthy. -/
def jTruthy : Json → Bool
  | .null => false
  | .bool b => b
  | .int n => decide (n ≠ 0)
  | .str s => !s.isEmpty
  | .arr xs => !xs.isEmpty
  | .obj kvs => !kvs.isEmpty

/-- A JSON-object payload: the request bodies the routes consume.  Python dict
keys are unique; lookup takes the first matching key. -/
abbrev Dict := List (String × Json)

/-- `d.get(k)` returning `None` as `none` when the key is absent. -/
def dictGet (d : Dict) (k : String) : Option Json :=
  match d with
  | [] => none
  | (k', v) :: rest => if k' = k then some v else dictGet rest k

/-- `k in d` for a dict. -/
def hasKey (d : Dict) (k : String) : Bool :=
  (dictGet d k).isSome

/-- `d.get(k, dflt)`. -/
def dictGetD (d : Dict) (k : String) (dflt : Json) : Json :=
  (dictGet d k).getD dflt

/-- Truthiness of `d.get(k)` (where a missing key gives falsy `None`). -/
def truthyKey (d : Dict) (k : String) : Bool :=
  match dictGet d k with
  | none => false
  | some v => jTruthy v

/-! ### `json.dumps` (CPython defaults: `ensure_ascii=True`, `", "`/`": "`) -/

/-- Lower-case hex digit character for `d < 16`. -/
def hexCh (d : Nat) : Char :=
  if d < 10 then Char.ofNat (48 + d) else Char.ofNat (97 + (d - 10))

/-- The four hex digits of `n % 0x10000`, most significant first. -/
def hex4Chars (n : Nat) : List Char :=
  [hexCh (n / 4096 % 16), hexCh (n / 256 % 16), hexCh (n / 16 % 16), hexCh (n % 16)]

/-- One character as CPython's `ensure_ascii` serializer emits it: printable
ASCII (other than `"` and `\`) stays itself, the short escapes cover
`\" \\ \n \t \r \b \f`, all other characters become `\uXXXX` (a surrogate pair
for code points beyond the BMP). -/
def escapeCh (c : Char) : List Char :=
  if c = '"' then ['\\', '"']
  else if c = '\\' then ['\\', '\\']
  else if c = '\n' then ['\\', 'n']
  else if c = '\t' then ['\\', 't']
  else if c = '\r' then ['\\', 'r']
  else if c = Char.ofNat 8 then ['\\', 'b']
  else if c = Char.ofNat 12 then ['\\', 'f']
  else if c.toNat < 32 ∨ (126 < c.toNat ∧ c.toNat < 65536) then
    '\\' :: 'u' :: hex4Chars c.toNat
  else if 65536 ≤ c.toNat then
    '\\' :: 'u' :: (hex4Chars (55296 + (c.toNat - 65536) / 1024) ++
      '\\' :: 'u' :: hex4Chars (56320 + (c.toNat - 65536) % 1024))
  else [c]

/-- A JSON string literal: quote, escaped body, quote. -/
def strLit (cs : List Char) : List Char :=
  '"' :: (cs.flatMap escapeCh ++ ['"'])

/-- Decimal digit characters of `n`, most significant first, before `acc`.
Structural on `fuel` so that concrete evaluation reduces in the kernel; any
`fuel` with `n < 10 ^ fuel` yields the digits. -/
def natCharsGo (fuel : Nat) (n : Nat) (acc : List Char) : List Char :=
  match fuel with
  | 0 => acc
  | fuel + 1 =>
    if n < 10 then Char.ofNat (48 + n) :: acc
    else natCharsGo fuel (n / 10) (Char.ofNat (48 + n % 10) :: acc)

/-- Decimal digit characters of `n`. -/
def natChars (n : Nat) : List Char := natCharsGo (n + 1) n []

/-- `str(i)` for a Python int: optional minus sign, then decimal digits. -/
def intChars (i : Int) : List Char :=
  (if i < 0 then ['-'] else []) ++ natChars i.natAbs

mutual

/-- `json.dumps` rendered to a character list. -/
def dumpsL : Json → List Char
  | .null => 'n' :: ['u', 'l', 'l']
  | .bool true => 't' :: ['r', 'u', 'e']
  | .bool false => 'f' :: ['a', 'l', 's', 'e']
  | .int i => intChars i
  | .str s => strLit s.data
  | .arr [] => ['[', ']']
  | .arr (x :: xs) => '[' :: (dumpsL x ++ (dumpsItemsRest xs ++ [']']))
  | .obj [] => ['{', '}']
  | .obj ((k, v) :: ps) =>
      '{' :: (strLit k.data ++ (':' :: ' ' :: (dumpsL v ++ (dumpsPairsRest ps ++ ['}']))))

/-- Remaining array elements, each preceded by the default `", "` separator. -/
def dumpsItemsRest : List Json → List Char
  | [] => []
  | x :: xs => ',' :: ' ' :: (dumpsL x ++ dumpsItemsRest xs)

/-- Remaining object members, each preceded by `", "`, key and value joined
by the default `": "`. -/
def dumpsPairsRest : List (String × Json) → List Char
  | [] => []
  | (k, v) :: ps =>
      ',' :: ' ' :: (strLit k.data ++ (':' :: ' ' :: (dumpsL v ++ dumpsPairsRest ps)))

end

/-- `json.dumps(j)`. -/
def dumps (j : Json) : String := String.mk (dumpsL j)

/-! ### `json.loads` (strict scanner) -/

/-- JSON whitespace. -/
def jIsWsCh (c : Char) : Bool := c = ' ' || c = '\t' || c = '\n' || c = '\r'

/-- Drop leading JSON whitespace. -/
def dropWs : List Char → List Char
  | [] => []
  | c :: cs => if jIsWsCh c then dropWs cs else c :: cs

/-- ASCII decimal digit test. -/
def isDigCh (c : Char) : Bool := '0' ≤ c && c ≤ '9'

/-- Split off the longest leading run of decimal digits. -/
def grabDigits : List Char → List Char × List Char
  | [] => ([], [])
  | c :: cs =>
      if isDigCh c then
        let p := grabDigits cs
        (c :: p.1, p.2)
      else ([], c :: cs)

/-- The natural number a digit run denotes. -/
def digitsNat (ds : List Char) : Nat :=
  ds.foldl (fun a c => a * 10 + (c.toNat - 48)) 0

/-- The value of one hex digit (both cases accepted, as in Python). -/
def hexDigVal (c : Char) : Option Nat :=
  if '0' ≤ c && c ≤ '9' then some (c.toNat - 48)
  else if 'a' ≤ c && c ≤ 'f' then some (c.toNat - 87)
  else if 'A' ≤ c && c ≤ 'F' then some (c.toNat - 55)
  else none

/-- The value of a `\uXXXX` escape's four hex digits. -/
def hexQuad (a b c d : Char) : Option Nat := do
  let va ← hexDigVal a
  let vb ← hexDigVal b
  let vc ← hexDigVal c
  let vd ← hexDigVal d
  pure (((va * 16 + vb) * 16 + vc) * 16 + vd)

/-- The single-character escapes Python's scanner accepts. -/
def simpleUnescape : Char → Option Char
  | '"' => some '"'
  | '\\' => some '\\'
  | 'n' => some '\n'
  | 't' => some '\t'
  | 'r' => some '\r'
  | '/' => some '/'
  | 'b' => some (Char.ofNat 8)
  | 'f' => some (Char.ofNat 12)
  | _ => none

/-- After a high surrogate `\uXXXX` with value `n`, a low surrogate escape
must follow; combine the pair into one code point. -/
def lowSurrogateAt (n : Nat) : List Char → Option (Char × List Char)
  | '\\' :: 'u' :: e :: f :: g :: h :: rest2 =>
    match hexQuad e f g h with
    | none => none
    | some m =>
      if 56320 ≤ m ∧ m ≤ 57343 then
        some (Char.ofNat (65536 + (n - 55296) * 1024 + (m - 56320)), rest2)
      else none
  | _ => none

/-- Decode what follows a backslash: a `\uXXXX` escape (surrogate pairs
combined; a lone surrogate is out of the modelled domain, Lean `Char` has no
representation for it), or a single-character escape.  Returns the decoded
character and the rest of the input. -/
def unescapeAt : List Char → Option (Char × List Char)
  | 'u' :: a :: b :: c2 :: d :: rest =>
    match hexQuad a b c2 d with
    | none => none
    | some n =>
      if n < 55296 ∨ 57343 < n then some (Char.ofNat n, rest)
      else if n < 56320 then lowSurrogateAt n rest
      else none
  | e :: rest =>
    match simpleUnescape e with
    | none => none
    | some ch => some (ch, rest)
  | [] => none

/-- Prepend a decoded character to a scanner result. -/
def consHd (ch : Char) : Option (List Char × List Char) → Option (List Char × List Char)
  | some p => some (ch :: p.1, p.2)
  | none => none

/-- Scan a string body after the opening quote: raw control characters are
rejected (strict mode) and escapes are decoded.  Fuel-indexed (one unit per
decoded character); callers supply input length + 1. -/
def lexStr (fuel : Nat) (cs : List Char) : Option (List Char × List Char) :=
  match fuel with
  | 0 => none
  | fuel + 1 =>
    match cs with
    | [] => none
    | c :: rest =>
      if c = '"' then some ([], rest)
      else if c = '\\' then
        match unescapeAt rest with
        | none => none
        | some q => consHd q.1 (lexStr fuel q.2)
      else if c.toNat < 32 then none
      else consHd c (lexStr fuel rest)

/-- Scan an integer literal: optional minus sign, then a digit run. -/
def lexInt (cs : List Char) : Option (Int × List Char) :=
  match cs with
  | [] => none
  | c :: rest =>
    if c = '-' then
      let p := grabDigits rest
      if p.1.isEmpty then none else some (-(digitsNat p.1 : Int), p.2)
    else
      let p := grabDigits (c :: rest)
      if p.1.isEmpty then none else some ((digitsNat p.1 : Int), p.2)

/-- Input that cannot extend a scanned integer: empty, or led by a non-digit.
Every delimiter a serialized document puts after a number (`,`, `]`, `}`, end
of input) qualifies. -/
def noDigitStart : List Char → Bool
  | [] => true
  | c :: _ => !isDigCh c

mutual

/-- Scan one JSON value (fuel-indexed; callers supply input length + 1). -/
def jparse (fuel : Nat) (cs : List Char) : Option (Json × List Char) :=
  match fuel with
  | 0 => none
  | fuel + 1 =>
    match dropWs cs with
    | [] => none
    | c :: r =>
      if c = 'n' then
        match r with
        | 'u' :: 'l' :: 'l' :: r2 => some (.null, r2)
        | _ => none
      else if c = 't' then
        match r with
        | 'r' :: 'u' :: 'e' :: r2 => some (.bool true, r2)
        | _ => none
      else if c = 'f' then
        match r with
        | 'a' :: 'l' :: 's' :: 'e' :: r2 => some (.bool false, r2)
        | _ => none
      else if c = '"' then
        match lexStr fuel r with
        | some p => some (.str (String.mk p.1), p.2)
        | none => none
      else if c = '[' then
        match dropWs r with
        | [] => none
        | c2 :: r2 =>
          if c2 = ']' then some (.arr [], r2)
          else
            match jparseItems fuel (c2 :: r2) with
            | some p => some (.arr p.1, p.2)
            | none => none
      else if c = '{' then
        match dropWs r with
        | [] => none
        | c2 :: r2 =>
          if c2 = '}' then some (.obj [], r2)
          else
            match jparsePairs fuel (c2 :: r2) with
            | some p => some (.obj p.1, p.2)
            | none => none
      else if c = '-' || isDigCh c then
        match lexInt (c :: r) with
        | some p => some (.int p.1, p.2)
        | none => none
      else none

/-- Scan the elements of a non-empty array (after `[`). -/
def jparseItems (fuel : Nat) (cs : List Char) : Option (List Json × List Char) :=
  match fuel with
  | 0 => none
  | fuel + 1 =>
    match jparse fuel cs with
    | none => none
    | some (v, r) =>
      match dropWs r with
      | [] => none
      | c :: r2 =>
        if c = ',' then
          match jparseItems fuel (dropWs r2) with
          | some p => some (v :: p.1, p.2)
          | none => none
        else if c = ']' then some ([v], r2)
        else none

/-- Scan the members of a non-empty object (after `{`). -/
def jparsePairs (fuel : Nat) (cs : List Char) : Option (List (String × Json) × List Char) :=
  match fuel with
  | 0 => none
  | fuel + 1 =>
    match dropWs cs with
    | [] => none
    | c :: r =>
      if c = '"' then
        match lexStr fuel r with
        | none => none
        | some (k, r1) =>
          match dropWs r1 with
          | [] => none
          | c2 :: r2 =>
            if c2 = ':' then
              match jparse fuel (dropWs r2) with
              | none => none
              | some (v, r3) =>
                match dropWs r3 with
                | [] => none
                | c3 :: r4 =>
                  if c3 = ',' then
                    match jparsePairs fuel (dropWs r4) with
                    | some p => some ((String.mk k, v) :: p.1, p.2)
                    | none => none
                  else if c3 = '}' then some ([(String.mk k, v)], r4)
                  else none
            else none
      else none

end

/-- `json.loads(s)`: scan one value, then require only whitespace to remain. -/
def loads (s : String) : Option Json :=
  match jparse (s.data.length + 1) s.data with
  | some (j, r) => if (dropWs r).isEmpty then some j else none
  | none => none

/-! ### `float(x)` (Python numeric coercion, exact rational semantics)

Only the acceptance/rejection behaviour and the denoted decimal value matter
to the claims; IEEE rounding, `inf`/`nan` literals and digit-group
underscores are outside the modelled domain. -/

/-- The decimal value of a Python float literal string, if the string is one:
optional surrounding whitespace, optional sign, digits with an optional
fractional part (at least one digit overall), optional exponent. -/
def floatStrVal (cs0 : List Char) : Option Rat :=
  let cs := dropWs cs0
  let sp : Bool × List Char :=
    match cs with
    | '-' :: r => (true, r)
    | '+' :: r => (false, r)
    | _ => (false, cs)
  let ip := grabDigits sp.2
  let fp : List Char × List Char :=
    match ip.2 with
    | '.' :: r => grabDigits r
    | _ => ([], ip.2)
  if ip.1.isEmpty && fp.1.isEmpty then none
  else
    let ep : Option (Int × List Char) :=
      match fp.2 with
      | 'e' :: r | 'E' :: r =>
        (match r with
         | '-' :: r2 =>
             let gp := grabDigits r2
             if gp.1.isEmpty then none else some (-(digitsNat gp.1 : Int), gp.2)
         | '+' :: r2 =>
             let gp := grabDigits r2
             if gp.1.isEmpty then none else some ((digitsNat gp.1 : Int), gp.2)
         | _ =>
             let gp := grabDigits r
             if gp.1.isEmpty then none else some ((digitsNat gp.1 : Int), gp.2))
      | _ => some (0, fp.2)
    match ep with
    | none => none
    | some (ex, rest) =>
      if (dropWs rest).isEmpty then
        let mag : Rat :=
          (digitsNat (ip.1 ++ fp.1) : Rat) / (10 : Rat) ^ fp.1.length * (10 : Rat) ^ ex
        some (if sp.1 then -mag else mag)
      else none

/-- `float(v)` on a JSON value: numbers and booleans coerce, numeric strings
parse, everything else (`None`, lists, dicts, non-numeric strings) raises —
modelled as `none`. -/
def pyFloat : Json → Option Rat
  | .int n => some (n : Rat)
  | .bool b => some (if b then 1 else 0)
  | .str s => floatStrVal s.data
  | _ => none

/-! ### Timestamps and `DATE_FORMAT(created_at, '%Y-%m-%d %H:%i:%s')` -/

/-- A `TIMESTAMP` column value (calendar fields; MySQL stores valid dates). -/
structure DateTime where
  year : Nat
  month : Nat
  day : Nat
  hour : Nat
  minute : Nat
  second : Nat
deriving DecidableEq, Repr

/-- Chronological sort key of a timestamp (lexicographic in the fields). -/
def dtKey (t : DateTime) : Nat :=
  ((((t.year * 13 + t.month) * 32 + t.day) * 24 + t.hour) * 60 + t.minute) * 60 + t.second

/-- Two-digit zero-padded decimal rendering (`%m %d %H %i %s`). -/
def pad2 (n : Nat) : List Char :=
  [Char.ofNat (48 + n / 10 % 10), Char.ofNat (48 + n % 10)]

/-- Four-digit zero-padded decimal rendering (`%Y`; MySQL years are ≤ 9999). -/
def pad4 (n : Nat) : List Char :=
  [Char.ofNat (48 + n / 1000 % 10), Char.ofNat (48 + n / 100 % 10),
   Char.ofNat (48 + n / 10 % 10), Char.ofNat (48 + n % 10)]

/-- `DATE_FORMAT(t, '%Y-%m-%d %H:%i:%s')`. -/
def mysqlDateFormat (t : DateTime) : String :=
  String.mk (pad4 t.year ++ '-' :: (pad2 t.month ++ '-' :: (pad2 t.day ++ ' ' ::
    (pad2 t.hour ++ ':' :: (pad2 t.minute ++ ':' :: pad2 t.second)))))

/-- The shape `YYYY-MM-DD HH:MM:SS`: 19 characters, digits and fixed
separators in the right positions. -/
def dateShape (s : String) : Bool :=
  match s.data with
  | [y1, y2, y3, y4, g1, mo1, mo2, g2, d1, d2, sp, h1, h2, g3, mi1, mi2, g4, s1, s2] =>
      isDigCh y1 && isDigCh y2 && isDigCh y3 && isDigCh y4 && g1 == '-' &&
      isDigCh mo1 && isDigCh mo2 && g2 == '-' && isDigCh d1 && isDigCh d2 &&
      sp == ' ' && isDigCh h1 && isDigCh h2 && g3 == ':' && isDigCh mi1 && isDigCh mi2 &&
      g4 == ':' && isDigCh s1 && isDigCh s2
  | _ => false

/-! ### Connection manager (`get_db_connection`) -/

/-- An opened connection handle. -/
abbrev ConnId := Nat

/-- The environment a run of the retry loop observes: what
`pymysql.connect(**get_db_config())` does on each attempt index. -/
abbrev ConnEnv := Nat → Except String ConnId

/-- What one call of `get_db_connection` did: its outcome, how many connect
attempts it made, and how many seconds it slept in between. -/
structure ConnTrace where
  result : Except String ConnId
  attempts : Nat
  sleepSec : Nat
deriving Repr

/-- The body of `for attempt in range(max_retries)`: return on the first
successful connect; on failure sleep 5 seconds and move to the next attempt
unless this was the last one (`attempt == max_retries - 1`), in which case the
exception propagates (`raise e`). -/
def connTry (env : ConnEnv) : List Nat → ConnTrace
  | [] => { result := .error "no attempts", attempts := 0, sleepSec := 0 }
  | a :: rest =>
    match env a with
    | .ok c => { result := .ok c, attempts := 1, sleepSec := 0 }
    | .error e =>
      match rest with
      | [] => { result := .error e, attempts := 1, sleepSec := 0 }
      | _ :: _ =>
        let t := connTry env rest
        { result := t.result, attempts := t.attempts + 1, sleepSec := t.sleepSec + 5 }

/-- `get_db_connection()` with `max_retries = 5`. -/
def get_db_connection (env : ConnEnv) : ConnTrace :=
  connTry env (List.range 5)

/-! ### Storage rows and tables -/

/-- A row of the `products` table.  Text-typed columns hold the JSON value the
handler bound into the insert (the driver passes Python values through). -/
structure ProductRow where
  id : Nat
  name : Json
  description : Json
  price : Rat
  image_url : Json
  category : Json
  stock_quantity : Json
  created_at : DateTime

/-- The `products` table plus its `AUTO_INCREMENT` counter. -/
structure ProductsDB where
  rows : List ProductRow
  nextId : Nat

/-- A row of the `orders` table; `items` is the serialized JSON document. -/
structure OrderRow where
  id : Nat
  customer_name : Json
  customer_email : Json
  customer_phone : Json
  customer_address : Json
  total_amount : Rat
  items : String
  status : String
  created_at : DateTime

/-- The `orders` table plus its `AUTO_INCREMENT` counter. -/
structure OrdersDB where
  rows : List OrderRow
  nextId : Nat

/-- `ORDER BY created_at DESC`: most recent first. -/
def prodGE (a b : ProductRow) : Prop := dtKey b.created_at ≤ dtKey a.created_at

instance : DecidableRel prodGE := fun _ _ => Nat.decLe _ _

instance : IsTotal ProductRow prodGE := ⟨fun _ _ => Nat.le_total _ _⟩

instance : IsTrans ProductRow prodGE := ⟨fun _ _ _ hab hbc => le_trans hbc hab⟩

/-- `ORDER BY created_at DESC` on orders. -/
def orderGE (a b : OrderRow) : Prop := dtKey b.created_at ≤ dtKey a.created_at

instance : DecidableRel orderGE := fun _ _ => Nat.decLe _ _

instance : IsTotal OrderRow orderGE := ⟨fun _ _ => Nat.le_total _ _⟩

instance : IsTrans OrderRow orderGE := ⟨fun _ _ _ hab hbc => le_trans hbc hab⟩

/-! ### Bootstrap (`init_db`) -/

/-- The four literal sample products of `init_db`, with the sequential
`AUTO_INCREMENT` ids `executemany` assigns. -/
def seedProducts (startId : Nat) (now : DateTime) : List ProductRow :=
  [ { id := startId, name := .str "MacBook Pro",
      description := .str "Powerful laptop for professionals", price := 1999.99,
      image_url := .str "https://images.unsplash.com/photo-1511385348-a52b4a160dc2?w=400",
      category := .str "Electronics", stock_quantity := .int 15, created_at := now },
    { id := startId + 1, name := .str "iPhone 15",
      description := .str "Latest smartphone with advanced features", price := 999.99,
      image_url := .str "https://images.unsplash.com/photo-1592750475338-74b7b21085ab?w=400",
      category := .str "Electronics", stock_quantity := .int 25, created_at := now },
    { id := startId + 2, name := .str "Sony Headphones",
      description := .str "Wireless noise-canceling headphones", price := 299.99,
      image_url := .str "https://images.unsplash.com/photo-1505740420928-5e560c06d30e?w=400",
      category := .str "Electronics", stock_quantity := .int 30, created_at := now },
    { id := startId + 3, name := .str "Cotton T-Shirt",
      description := .str "Comfortable cotton t-shirt", price := 24.99,
      image_url := .str "https://images.unsplash.com/photo-1521572163474-6864f9cf17ab?w=400",
      category := .str "Clothing", stock_quantity := .int 50, created_at := now } ]

/-- The row effect of `init_db` on the products table: the two
`CREATE TABLE IF NOT EXISTS` statements do not change existing rows; then
`SELECT COUNT(*)` and, only when the count is zero, the four sample rows are
inserted. -/
def init_db (db : ProductsDB) (now : DateTime) : ProductsDB :=
  if db.rows.length = 0 then
    { rows := db.rows ++ seedProducts db.nextId now, nextId := db.nextId + 4 }
  else db

/-! ### HTTP handlers

Each handler takes the connect environment and a flag for whether its
queries succeed (modelling the driver raising inside the `try`), and reports
its HTTP status, payload fields, the resulting table state, and whether the
request's connection was opened / closed before the handler returned. -/

/-- Result of `GET /health`. -/
structure HealthResult where
  status : Nat
  dbField : Option String
  error : Option String
  connOpened : Bool
  connClosed : Bool

/-- `health_check()`: open a connection, close it immediately, report healthy;
a connect failure is caught and reported as 500. -/
def health_check (env : ConnEnv) : HealthResult :=
  match (get_db_connection env).result with
  | .ok _ =>
      { status := 200, dbField := some "connected", error := none,
        connOpened := true, connClosed := true }
  | .error e =>
      { status := 500, dbField := none, error := some e,
        connOpened := false, connClosed := false }

/-- Result of `GET /products`. -/
structure ProductsListResult where
  status : Nat
  error : Option String
  rows : List ProductRow
  connOpened : Bool
  connClosed : Bool

/-- `get_products()`: connect, `SELECT * FROM products ORDER BY created_at
DESC`, close, return the rows; any failure after the connection was opened
jumps to the `except` block and returns 500 without closing. -/
def get_products (env : ConnEnv) (queryOk : Bool) (db : ProductsDB) : ProductsListResult :=
  match (get_db_connection env).result with
  | .error e =>
      { status := 500, error := some e, rows := [], connOpened := false, connClosed := false }
  | .ok _ =>
    if queryOk then
      { status := 200, error := none, rows := List.insertionSort prodGE db.rows,
        connOpened := true, connClosed := true }
    else
      { status := 500, error := some "query failed", rows := [],
        connOpened := true, connClosed := false }

/-- Result of `POST /products`. -/
structure AddProductResult where
  status : Nat
  error : Option String
  message : Option String
  product_id : Option Nat
  db : ProductsDB
  connOpened : Bool
  connClosed : Bool

/-- `add_product(data)`, line by line: the falsy-check on `data.get('name')`
and `data.get('price')` gives the 400 validation error; then a connection is
opened, the insert tuple is built (where `float(data['price'])` may raise),
the row is inserted, committed, the connection closed and the new id
returned.  A missing payload (`data is None`) raises `AttributeError` on
`.get`, caught as 500. -/
def add_product (data : Option Dict) (env : ConnEnv) (insertOk : Bool)
    (db : ProductsDB) (now : DateTime) : AddProductResult :=
  match data with
  | none =>
      { status := 500, error := some "AttributeError", message := none, product_id := none,
        db := db, connOpened := false, connClosed := false }
  | some d =>
    if !truthyKey d "name" || !truthyKey d "price" then
      { status := 400, error := some "Name and price are required", message := none,
        product_id := none, db := db, connOpened := false, connClosed := false }
    else
      match (get_db_connection env).result with
      | .error e =>
          { status := 500, error := some e, message := none, product_id := none,
            db := db, connOpened := false, connClosed := false }
      | .ok _ =>
        match pyFloat (dictGetD d "price" .null) with
        | none =>
            { status := 500, error := some "could not convert value to float", message := none,
              product_id := none, db := db, connOpened := true, connClosed := false }
        | some p =>
          if insertOk then
            let row : ProductRow :=
              { id := db.nextId,
                name := dictGetD d "name" .null,
                price := p,
                description := dictGetD d "description" (.str ""),
                image_url := dictGetD d "image_url" .null,
                category := dictGetD d "category" (.str "General"),
                stock_quantity := dictGetD d "stock_quantity" (.int 10),
                created_at := now }
            { status := 200, error := none, message := some "Product added successfully",
              product_id := some db.nextId,
              db := { rows := db.rows ++ [row], nextId := db.nextId + 1 },
              connOpened := true, connClosed := true }
          else
            { status := 500, error := some "insert failed", message := none, product_id := none,
              db := db, connOpened := true, connClosed := false }

/-- Result of `POST /orders`. -/
structure CreateOrderResult where
  status : Nat
  error : Option String
  message : Option String
  order_id : Option Nat
  respStatus : Option String
  db : OrdersDB
  connOpened : Bool
  connClosed : Bool

/-- The required-field scan order of `create_order`. -/
def requiredFields : List String :=
  ["customer_name", "customer_email", "customer_address", "total_amount", "items"]

/-- The `for field in required_fields` loop: the first field that is not a key
of `data`, scanning left to right. -/
def firstMissing (d : Dict) : List String → Option String
  | [] => none
  | f :: fs => if hasKey d f then firstMissing d fs else some f

/-- The 400 response shared by the two `not data` outcomes of `create_order`
(`None` payload and empty dict are both falsy). -/
def noDataResult (db : OrdersDB) : CreateOrderResult :=
  { status := 400, error := some "No data provided", message := none, order_id := none,
    respStatus := none, db := db, connOpened := false, connClosed := false }

/-- `create_order(data)`, line by line: the `not data` guard, the
required-field loop, the `items` list check, then connect, build the insert
tuple (`float(data['total_amount'])` may raise; `items` is serialized with
`json.dumps`), insert with `status = 'pending'`, commit, close, and answer
with the new id and status `"pending"`. -/
def create_order (data : Option Dict) (env : ConnEnv) (insertOk : Bool)
    (db : OrdersDB) (now : DateTime) : CreateOrderResult :=
  match data with
  | none => noDataResult db
  | some d =>
    if d.isEmpty then noDataResult db
    else
      match firstMissing d requiredFields with
      | some f =>
          { status := 400, error := some ("Missing required field: " ++ f), message := none,
            order_id := none, respStatus := none, db := db,
            connOpened := false, connClosed := false }
      | none =>
        match dictGetD d "items" .null with
        | .arr (x :: xs) =>
          match (get_db_connection env).result with
          | .error e =>
              { status := 500, error := some e, message := none, order_id := none,
                respStatus := none, db := db, connOpened := false, connClosed := false }
          | .ok _ =>
            match pyFloat (dictGetD d "total_amount" .null) with
            | none =>
                { status := 500, error := some "could not convert value to float",
                  message := none, order_id := none, respStatus := none, db := db,
                  connOpened := true, connClosed := false }
            | some amt =>
              if insertOk then
                let row : OrderRow :=
                  { id := db.nextId,
                    customer_name := dictGetD d "customer_name" .null,
                    customer_email := dictGetD d "customer_email" .null,
                    customer_phone := dictGetD d "customer_phone" (.str ""),
                    customer_address := dictGetD d "customer_address" .null,
                    total_amount := amt,
                    items := dumps (.arr (x :: xs)),
                    status := "pending",
                    created_at := now }
                { status := 200, error := none, message := some "Order created successfully",
                  order_id := some db.nextId, respStatus := some "pending",
                  db := { rows := db.rows ++ [row], nextId := db.nextId + 1 },
                  connOpened := true, connClosed := true }
              else
                { status := 500, error := some "insert failed", message := none,
                  order_id := none, respStatus := none, db := db,
                  connOpened := true, connClosed := false }
        | _ =>
            { status := 400, error := some "Items must be a non-empty list", message := none,
              order_id := none, respStatus := none, db := db,
              connOpened := false, connClosed := false }

/-- An order record as `GET /orders` returns it: all columns, `items` parsed
back from JSON, plus the derived `order_date` string. -/
structure OrderOut where
  id : Nat
  customer_name : Json
  customer_email : Json
  customer_phone : Json
  customer_address : Json
  total_amount : Rat
  items : Json
  status : String
  created_at : DateTime
  order_date : String

/-- One iteration of the `for order in orders` loop: `json.loads` the stored
`items` string (an exception aborts the whole handler). -/
def parseOrderRow (r : OrderRow) : Option OrderOut :=
  match loads r.items with
  | none => none
  | some j =>
      some { id := r.id, customer_name := r.customer_name, customer_email := r.customer_email,
             customer_phone := r.customer_phone, customer_address := r.customer_address,
             total_amount := r.total_amount, items := j, status := r.status,
             created_at := r.created_at, order_date := mysqlDateFormat r.created_at }

/-- Run an option-valued function across a list, failing on the first `none`
(the Python loop raising on the first bad row). -/
def optMapM (f : α → Option β) : List α → Option (List β)
  | [] => some []
  | a :: l =>
    match f a, optMapM f l with
    | some b, some bs => some (b :: bs)
    | _, _ => none

/-- `ORDER BY created_at DESC` seen on the returned order records. -/
def outGE (a b : OrderOut) : Prop := dtKey b.created_at ≤ dtKey a.created_at

/-- Result of `GET /orders`. -/
structure OrdersListResult where
  status : Nat
  error : Option String
  rows : List OrderOut
  connOpened : Bool
  connClosed : Bool

/-- `get_orders()`: connect, select all orders newest first with the derived
`order_date` column, parse each row's `items`, close, return; any failure
after the connection was opened returns 500 without closing. -/
def get_orders (env : ConnEnv) (queryOk : Bool) (db : OrdersDB) : OrdersListResult :=
  match (get_db_connection env).result with
  | .error e =>
      { status := 500, error := some e, rows := [], connOpened := false, connClosed := false }
  | .ok _ =>
    if queryOk then
      match optMapM parseOrderRow (List.insertionSort orderGE db.rows) with
      | some outs =>
          { status := 200, error := none, rows := outs, connOpened := true, connClosed := true }
      | none =>
          { status := 500, error := some "json decode error", rows := [],
            connOpened := true, connClosed := false }
    else
      { status := 500, error := some "query failed", rows := [],
        connOpened := true, connClosed := false }

/-! ## Round-trip of the JSON codec: auxiliary lemmas -/

theorem toNat_ofNat_valid (n : Nat) (h : n.isValidChar) : (Char.ofNat n).toNat = n := by
  simp [Char.ofNat, h, Char.ofNatAux, Char.toNat, UInt32.toNat]

theorem toNat_ofNat_small (n : Nat) (h : n < 55296) : (Char.ofNat n).toNat = n :=
  toNat_ofNat_valid n (Or.inl h)

theorem char_valid_or (c : Char) :
    c.toNat < 55296 ∨ (57343 < c.toNat ∧ c.toNat < 1114112) := c.valid

theorem isDigCh_ofNat (d : Nat) (h : d < 10) : isDigCh (Char.ofNat (48 + d)) = true := by
  interval_cases d <;> decide

theorem toNat_digitChar (d : Nat) (h : d < 10) : (Char.ofNat (48 + d)).toNat = 48 + d :=
  toNat_ofNat_small _ (by omega)

/-- A digit character is none of the characters the scanner dispatches on. -/
theorem digit_sep {c : Char} (h : isDigCh c = true) :
    c ≠ 'n' ∧ c ≠ 't' ∧ c ≠ 'f' ∧ c ≠ '"' ∧ c ≠ '[' ∧ c ≠ '{' ∧ c ≠ '-' ∧
    c ≠ ']' ∧ c ≠ '}' ∧ c ≠ ',' ∧ jIsWsCh c = false := by
  have hws : jIsWsCh c = false := by
    cases hw : jIsWsCh c with
    | false => rfl
    | true =>
        simp only [jIsWsCh, Bool.or_eq_true, decide_eq_true_eq] at hw
        rcases hw with ((rfl | rfl) | rfl) | rfl <;> exact absurd h (by decide)
  refine ⟨?_, ?_, ?_, ?_, ?_, ?_, ?_, ?_, ?_, ?_, hws⟩ <;>
    · intro hEq
      subst hEq
      exact absurd h (by decide)

theorem natCharsGo_spec : ∀ (fuel n : Nat), n < 10 ^ (fuel + 1) → ∀ acc, ∃ ds,
    natCharsGo (fuel + 1) n acc = ds ++ acc ∧ ds ≠ [] ∧
    (∀ c ∈ ds, isDigCh c = true) ∧ digitsNat ds = n := by
  intro fuel
  induction fuel with
  | zero =>
    intro n h acc
    have h10 : n < 10 := by simpa using h
    refine ⟨[Char.ofNat (48 + n)], ?_, by simp, ?_, ?_⟩
    · simp [natCharsGo, h10]
    · intro c hc
      rw [List.mem_singleton] at hc
      subst hc
      exact isDigCh_ofNat n h10
    · simp [digitsNat, toNat_digitChar n h10]
  | succ f ih =>
    intro n h acc
    by_cases h10 : n < 10
    · refine ⟨[Char.ofNat (48 + n)], ?_, by simp, ?_, ?_⟩
      · simp [natCharsGo, h10]
      · intro c hc
        rw [List.mem_singleton] at hc
        subst hc
        exact isDigCh_ofNat n h10
      · simp [digitsNat, toNat_digitChar n h10]
    · have hdiv : n / 10 < 10 ^ (f + 1) := by
        have hmul : n < 10 ^ (f + 1) * 10 := by
          have : (10 : Nat) ^ (f + 1 + 1) = 10 ^ (f + 1) * 10 := pow_succ 10 (f + 1)
          omega
        exact Nat.div_lt_of_lt_mul (by omega)
      obtain ⟨ds, heq, hne, hdig, hval⟩ := ih (n / 10) hdiv (Char.ofNat (48 + n % 10) :: acc)
      refine ⟨ds ++ [Char.ofNat (48 + n % 10)], ?_, by simp, ?_, ?_⟩
      · rw [show natCharsGo (f + 1 + 1) n acc
            = natCharsGo (f + 1) (n / 10) (Char.ofNat (48 + n % 10) :: acc) from by
          simp [natCharsGo, h10]]
        rw [heq]
        simp
      · intro c hc
        rcases List.mem_append.1 hc with h1 | h1
        · exact hdig c h1
        · rw [List.mem_singleton] at h1
          subst h1
          exact isDigCh_ofNat _ (Nat.mod_lt _ (by omega))
      · have : digitsNat (ds ++ [Char.ofNat (48 + n % 10)])
            = digitsNat ds * 10 + ((Char.ofNat (48 + n % 10)).toNat - 48) := by
          simp [digitsNat, List.foldl_append]
        rw [this, hval, toNat_digitChar _ (Nat.mod_lt _ (by omega))]
        omega

theorem natChars_spec (n : Nat) : natChars n ≠ [] ∧
    (∀ c ∈ natChars n, isDigCh c = true) ∧ digitsNat (natChars n) = n := by
  have hlt : n < 10 ^ (n + 1) :=
    lt_of_lt_of_le (Nat.lt_pow_self (by omega) n) (Nat.pow_le_pow_right (by omega) (by omega))
  obtain ⟨ds, heq, hne, hdig, hval⟩ := natCharsGo_spec n n hlt []
  have hn : natChars n = ds := by rw [natChars, heq, List.append_nil]
  rw [hn]
  exact ⟨hne, hdig, hval⟩

theorem grabDigits_stop {rest : List Char} (h : noDigitStart rest = true) :
    grabDigits rest = ([], rest) := by
  cases rest with
  | nil => rfl
  | cons c t =>
      simp only [noDigitStart, Bool.not_eq_true'] at h
      simp [grabDigits, h]

theorem grabDigits_run {ds rest : List Char} (hds : ∀ c ∈ ds, isDigCh c = true)
    (hrest : grabDigits rest = ([], rest)) :
    grabDigits (ds ++ rest) = (ds, rest) := by
  induction ds with
  | nil => simpa using hrest
  | cons c t ih =>
      have hc := hds c (by simp)
      have ht := ih (fun x hx => hds x (by simp [hx]))
      simp [grabDigits, hc, ht]

theorem lexInt_intChars (i : Int) (rest : List Char) (h : noDigitStart rest = true) :
    lexInt (intChars i ++ rest) = some (i, rest) := by
  obtain ⟨hne, hdig, hval⟩ := natChars_spec i.natAbs
  have hE : (natChars i.natAbs).isEmpty = false := by
    cases hcs : natChars i.natAbs with
    | nil => exact absurd hcs hne
    | cons a b => rfl
  by_cases hneg : i < 0
  · have harg : intChars i ++ rest = '-' :: (natChars i.natAbs ++ rest) := by
      simp [intChars, hneg]
    rw [harg]
    have hstep : lexInt ('-' :: (natChars i.natAbs ++ rest))
        = (if (grabDigits (natChars i.natAbs ++ rest)).1.isEmpty then none
           else some (-(digitsNat (grabDigits (natChars i.natAbs ++ rest)).1 : Int),
                      (grabDigits (natChars i.natAbs ++ rest)).2)) := rfl
    rw [hstep, grabDigits_run hdig (grabDigits_stop h), if_neg (by simp [hE])]
    show some (-(digitsNat (natChars i.natAbs) : Int), rest) = some (i, rest)
    rw [hval]
    have hi : -(i.natAbs : Int) = i := by omega
    rw [hi]
  · cases hcs : natChars i.natAbs with
    | nil => exact absurd hcs hne
    | cons c0 t =>
      have hc0 : isDigCh c0 = true := hdig c0 (by rw [hcs]; exact List.mem_cons_self _ _)
      have hminus : c0 ≠ '-' := (digit_sep hc0).2.2.2.2.2.2.1
      have harg : intChars i ++ rest = c0 :: (t ++ rest) := by
        simp [intChars, hneg, hcs]
      rw [harg]
      have hstep : lexInt (c0 :: (t ++ rest))
          = (if c0 = '-' then
               (if (grabDigits (t ++ rest)).1.isEmpty then none
                else some (-(digitsNat (grabDigits (t ++ rest)).1 : Int),
                           (grabDigits (t ++ rest)).2))
             else
               (if (grabDigits (c0 :: (t ++ rest))).1.isEmpty then none
                else some ((digitsNat (grabDigits (c0 :: (t ++ rest))).1 : Int),
                           (grabDigits (c0 :: (t ++ rest))).2))) := rfl
      have hgrab : grabDigits (c0 :: (t ++ rest)) = (c0 :: t, rest) := by
        have h2 := @grabDigits_run (c0 :: t) rest (by rw [← hcs]; exact hdig) (grabDigits_stop h)
        simpa using h2
      rw [hstep, if_neg hminus, hgrab, if_neg (by simp)]
      rw [hcs] at hval
      show some ((digitsNat (c0 :: t) : Int), rest) = some (i, rest)
      rw [hval]
      have hi : ((i.natAbs : Int)) = i := by omega
      rw [hi]

theorem hexDigVal_hexCh (d : Nat) (h : d < 16) : hexDigVal (hexCh d) = some d := by
  interval_cases d <;> decide

theorem hexQuad_hex4 (n : Nat) (h : n < 65536) :
    hexQuad (hexCh (n / 4096 % 16)) (hexCh (n / 256 % 16)) (hexCh (n / 16 % 16))
      (hexCh (n % 16)) = some n := by
  have h1 := hexDigVal_hexCh (n / 4096 % 16) (by omega)
  have h2 := hexDigVal_hexCh (n / 256 % 16) (by omega)
  have h3 := hexDigVal_hexCh (n / 16 % 16) (by omega)
  have h4 := hexDigVal_hexCh (n % 16) (by omega)
  simp [hexQuad, h1, h2, h3, h4]
  omega

/-- One-step unfolding of the escape decoder on a `\uXXXX` escape
(definitional). -/
theorem unescapeAt_u (a b c2 d : Char) (t : List Char) :
    unescapeAt ('u' :: a :: b :: c2 :: d :: t)
      = (match hexQuad a b c2 d with
         | none => none
         | some n =>
           if n < 55296 ∨ 57343 < n then some (Char.ofNat n, t)
           else if n < 56320 then lowSurrogateAt n t
           else none) := rfl

/-- One-step unfolding of the low-surrogate decoder (definitional). -/
theorem lowSurrogateAt_u (n : Nat) (e f g h : Char) (t : List Char) :
    lowSurrogateAt n ('\\' :: 'u' :: e :: f :: g :: h :: t)
      = (match hexQuad e f g h with
         | none => none
         | some m =>
           if 56320 ≤ m ∧ m ≤ 57343 then
             some (Char.ofNat (65536 + (n - 55296) * 1024 + (m - 56320)), t)
           else none) := rfl

/-- One-step unfolding of the string scanner at positive fuel (definitional). -/
theorem lexStr_cons (fuel : Nat) (c : Char) (t : List Char) :
    lexStr (fuel + 1) (c :: t)
      = (if c = '"' then some ([], t)
         else if c = '\\' then
           match unescapeAt t with
           | none => none
           | some q => consHd q.1 (lexStr fuel q.2)
         else if c.toNat < 32 then none
         else consHd c (lexStr fuel t)) := rfl

theorem consHd_pair (ch : Char) (xs r : List Char) :
    consHd ch (some (xs, r)) = some (ch :: xs, r) := rfl

theorem char_not_sur (c : Char) : c.toNat < 55296 ∨ 57343 < c.toNat :=
  (char_valid_or c).imp id And.left

/-- Decoding each short escape (definitional). -/
theorem unescapeAt_quote (t : List Char) : unescapeAt ('"' :: t) = some ('"', t) := rfl

theorem unescapeAt_bslash (t : List Char) : unescapeAt ('\\' :: t) = some ('\\', t) := rfl

theorem unescapeAt_n (t : List Char) : unescapeAt ('n' :: t) = some ('\n', t) := rfl

theorem unescapeAt_t (t : List Char) : unescapeAt ('t' :: t) = some ('\t', t) := rfl

theorem unescapeAt_r (t : List Char) : unescapeAt ('r' :: t) = some ('\r', t) := rfl

theorem unescapeAt_b (t : List Char) : unescapeAt ('b' :: t) = some (Char.ofNat 8, t) := rfl

theorem unescapeAt_f (t : List Char) : unescapeAt ('f' :: t) = some (Char.ofNat 12, t) := rfl

/-- Scanning an escape then continuing: the composite step of `lexStr` on a
backslash, phrased over the decoded pieces so call sites stay small. -/
theorem lexStr_bslash_step (fuel : Nat) (t : List Char) (ch : Char) (t2 : List Char)
    (hu : unescapeAt t = some (ch, t2)) (out : Option (List Char × List Char))
    (hrec : lexStr fuel t2 = out) :
    lexStr (fuel + 1) ('\\' :: t) = consHd ch out := by
  rw [lexStr_cons, if_neg (by decide), if_pos rfl, hu]
  show consHd ch (lexStr fuel t2) = consHd ch out
  rw [hrec]

/-- Scanning an escaped body recovers exactly the original characters. -/
theorem lexStr_escaped : ∀ (cs : List Char) (fuel : Nat) (rest : List Char),
    cs.length < fuel →
    lexStr fuel (cs.flatMap escapeCh ++ '"' :: rest) = some (cs, rest) := by
  intro cs
  induction cs with
  | nil =>
    intro fuel rest hf
    cases fuel with
    | zero => exact absurd hf (by omega)
    | succ fuel =>
      show lexStr (fuel + 1) ('"' :: rest) = some ([], rest)
      rw [lexStr_cons, if_pos rfl]
  | cons c cs ih =>
    intro fuel rest hf
    cases fuel with
    | zero => exact absurd hf (by omega)
    | succ fuel =>
    have hf2 : cs.length < fuel := by
      simp only [List.length_cons] at hf
      omega
    rw [List.flatMap_cons, List.append_assoc]
    by_cases h1 : c = '"'
    · subst h1
      rw [show escapeCh '"' = ['\\', '"'] from rfl]
      simp only [List.cons_append, List.nil_append]
      rw [lexStr_bslash_step fuel _ _ _ (unescapeAt_quote _) _ (ih fuel rest hf2), consHd_pair]
    · by_cases h2 : c = '\\'
      · subst h2
        rw [show escapeCh '\\' = ['\\', '\\'] from rfl]
        simp only [List.cons_append, List.nil_append]
        rw [lexStr_bslash_step fuel _ _ _ (unescapeAt_bslash _) _ (ih fuel rest hf2), consHd_pair]
      · by_cases h3 : c = '\n'
        · subst h3
          rw [show escapeCh '\n' = ['\\', 'n'] from rfl]
          simp only [List.cons_append, List.nil_append]
          rw [lexStr_bslash_step fuel _ _ _ (unescapeAt_n _) _ (ih fuel rest hf2), consHd_pair]
        · by_cases h4 : c = '\t'
          · subst h4
            rw [show escapeCh '\t' = ['\\', 't'] from rfl]
            simp only [List.cons_append, List.nil_append]
            rw [lexStr_bslash_step fuel _ _ _ (unescapeAt_t _) _ (ih fuel rest hf2), consHd_pair]
          · by_cases h5 : c = '\r'
            · subst h5
              rw [show escapeCh '\r' = ['\\', 'r'] from rfl]
              simp only [List.cons_append, List.nil_append]
              rw [lexStr_bslash_step fuel _ _ _ (unescapeAt_r _) _ (ih fuel rest hf2), consHd_pair]
            · by_cases h6 : c = Char.ofNat 8
              · subst h6
                rw [show escapeCh (Char.ofNat 8) = ['\\', 'b'] from rfl]
                simp only [List.cons_append, List.nil_append]
                rw [lexStr_bslash_step fuel _ _ _ (unescapeAt_b _) _ (ih fuel rest hf2), consHd_pair]
              · by_cases h7 : c = Char.ofNat 12
                · subst h7
                  rw [show escapeCh (Char.ofNat 12) = ['\\', 'f'] from rfl]
                  simp only [List.cons_append, List.nil_append]
                  rw [lexStr_bslash_step fuel _ _ _ (unescapeAt_f _) _ (ih fuel rest hf2), consHd_pair]
                · by_cases h8 : c.toNat < 32 ∨ (126 < c.toNat ∧ c.toNat < 65536)
                  · have hlt : c.toNat < 65536 := by
                      rcases h8 with h | h
                      · omega
                      · exact h.2
                    have hq := hexQuad_hex4 c.toNat hlt
                    rw [show escapeCh c = '\\' :: 'u' :: hex4Chars c.toNat from by
                      simp [escapeCh, h1, h2, h3, h4, h5, h6, h7, h8]]
                    rw [show hex4Chars c.toNat
                        = [hexCh (c.toNat / 4096 % 16), hexCh (c.toNat / 256 % 16),
                           hexCh (c.toNat / 16 % 16), hexCh (c.toNat % 16)] from rfl]
                    simp only [List.cons_append, List.nil_append]
                    have hu : unescapeAt ('u' :: hexCh (c.toNat / 4096 % 16) ::
                        hexCh (c.toNat / 256 % 16) :: hexCh (c.toNat / 16 % 16) ::
                        hexCh (c.toNat % 16) :: (cs.flatMap escapeCh ++ '"' :: rest))
                        = some (c, cs.flatMap escapeCh ++ '"' :: rest) := by
                      rw [unescapeAt_u]
                      simp only [hq]
                      rw [if_pos (char_not_sur c), Char.ofNat_toNat]
                    rw [lexStr_bslash_step fuel _ _ _ hu _ (ih fuel rest hf2), consHd_pair]
                  · by_cases h9 : 65536 ≤ c.toNat
                    · have hup : c.toNat < 1114112 := by
                        rcases char_valid_or c with h | h
                        · omega
                        · exact h.2
                      have hqh := hexQuad_hex4 (55296 + (c.toNat - 65536) / 1024) (by omega)
                      have hql := hexQuad_hex4 (56320 + (c.toNat - 65536) % 1024) (by omega)
                      rw [show escapeCh c
                          = '\\' :: 'u' :: (hex4Chars (55296 + (c.toNat - 65536) / 1024) ++
                              '\\' :: 'u' :: hex4Chars (56320 + (c.toNat - 65536) % 1024)) from by
                        simp [escapeCh, h1, h2, h3, h4, h5, h6, h7, h8, h9]]
                      rw [show ∀ m : Nat, hex4Chars m
                          = [hexCh (m / 4096 % 16), hexCh (m / 256 % 16),
                             hexCh (m / 16 % 16), hexCh (m % 16)] from fun _ => rfl,
                          show ∀ m : Nat, hex4Chars m
                          = [hexCh (m / 4096 % 16), hexCh (m / 256 % 16),
                             hexCh (m / 16 % 16), hexCh (m % 16)] from fun _ => rfl]
                      simp only [List.cons_append, List.nil_append, List.append_assoc]
                      have hu : unescapeAt ('u' ::
                          hexCh ((55296 + (c.toNat - 65536) / 1024) / 4096 % 16) ::
                          hexCh ((55296 + (c.toNat - 65536) / 1024) / 256 % 16) ::
                          hexCh ((55296 + (c.toNat - 65536) / 1024) / 16 % 16) ::
                          hexCh ((55296 + (c.toNat - 65536) / 1024) % 16) ::
                          ('\\' :: 'u' ::
                            hexCh ((56320 + (c.toNat - 65536) % 1024) / 4096 % 16) ::
                            hexCh ((56320 + (c.toNat - 65536) % 1024) / 256 % 16) ::
                            hexCh ((56320 + (c.toNat - 65536) % 1024) / 16 % 16) ::
                            hexCh ((56320 + (c.toNat - 65536) % 1024) % 16) ::
                            (cs.flatMap escapeCh ++ '"' :: rest)))
                          = some (c, cs.flatMap escapeCh ++ '"' :: rest) := by
                        rw [unescapeAt_u]
                        simp only [hqh]
                        rw [if_neg (by omega), if_pos (by omega), lowSurrogateAt_u]
                        simp only [hql]
                        rw [if_pos (by omega)]
                        rw [show 65536 + (55296 + (c.toNat - 65536) / 1024 - 55296) * 1024 +
                              (56320 + (c.toNat - 65536) % 1024 - 56320) = c.toNat from by omega]
                        rw [Char.ofNat_toNat]
                      rw [lexStr_bslash_step fuel _ _ _ hu _ (ih fuel rest hf2), consHd_pair]
                    · have hc32 : ¬ c.toNat < 32 := by
                        intro hlt
                        exact h8 (Or.inl hlt)
                      rw [show escapeCh c = [c] from by
                        simp [escapeCh, h1, h2, h3, h4, h5, h6, h7, h8, h9]]
                      simp only [List.cons_append, List.nil_append]
                      rw [lexStr_cons, if_neg h1, if_neg h2, if_neg hc32]
                      rw [ih fuel rest hf2, consHd_pair]

theorem dropWs_cons_nonws {c : Char} {t : List Char} (h : jIsWsCh c = false) :
    dropWs (c :: t) = c :: t := by
  simp [dropWs, h]

theorem dropWs_space (t : List Char) : dropWs (' ' :: t) = dropWs t := by
  simp [dropWs, jIsWsCh]

/-- Every serialized value starts with a character that is not whitespace and
closes no bracket. -/
theorem dumpsL_head (j : Json) :
    ∃ c t, dumpsL j = c :: t ∧ jIsWsCh c = false ∧ c ≠ ']' ∧ c ≠ '}' := by
  have mk : ∀ (c : Char) (t : List Char), dumpsL j = c :: t →
      (!jIsWsCh c && !(c == ']') && !(c == '}')) = true →
      ∃ c2 t2, dumpsL j = c2 :: t2 ∧ jIsWsCh c2 = false ∧ c2 ≠ ']' ∧ c2 ≠ '}' := by
    intro c t h hb
    simp only [Bool.and_eq_true, Bool.not_eq_true', beq_eq_false_iff_ne] at hb
    exact ⟨c, t, h, hb.1.1, hb.1.2, hb.2⟩
  cases j with
  | null => exact mk 'n' _ rfl (by decide)
  | bool b =>
    cases b with
    | true => exact mk 't' _ rfl (by decide)
    | false => exact mk 'f' _ rfl (by decide)
  | str s => exact mk '"' _ rfl (by decide)
  | arr xs =>
    cases xs with
    | nil => exact mk '[' _ rfl (by decide)
    | cons x xs => exact mk '[' _ rfl (by decide)
  | obj ps =>
    cases ps with
    | nil => exact mk '{' _ rfl (by decide)
    | cons p ps =>
      obtain ⟨k, v⟩ := p
      exact mk '{' _ rfl (by decide)
  | int i =>
    by_cases hneg : i < 0
    · refine ⟨'-', natChars i.natAbs, ?_, by decide, by decide, by decide⟩
      show intChars i = '-' :: natChars i.natAbs
      simp [intChars, hneg]
    · obtain ⟨hne, hdig, hval⟩ := natChars_spec i.natAbs
      cases hcs : natChars i.natAbs with
      | nil => exact absurd hcs hne
      | cons c0 t0 =>
        have hc0 : isDigCh c0 = true := hdig c0 (by rw [hcs]; exact List.mem_cons_self _ _)
        obtain ⟨_, _, _, _, _, _, _, hrb, hcb, _, hws⟩ := digit_sep hc0
        refine ⟨c0, t0, ?_, hws, hrb, hcb⟩
        show intChars i = c0 :: t0
        simp [intChars, hneg, hcs]

theorem dropWs_dumpsL (j : Json) (x : List Char) :
    dropWs (dumpsL j ++ x) = dumpsL j ++ x := by
  obtain ⟨c, t, heq, hws, _, _⟩ := dumpsL_head j
  rw [heq, List.cons_append, dropWs_cons_nonws hws]

theorem dropWs_strLit (cs x : List Char) :
    dropWs (strLit cs ++ x) = strLit cs ++ x := by
  rw [show strLit cs ++ x = '"' :: ((cs.flatMap escapeCh ++ ['"']) ++ x) from by simp [strLit]]
  rw [dropWs_cons_nonws (by decide)]

theorem noDig_items (xs : List Json) (rest : List Char) :
    noDigitStart (dumpsItemsRest xs ++ ']' :: rest) = true := by
  cases xs with
  | nil => rfl
  | cons x xs => rfl

theorem noDig_pairs (ps : List (String × Json)) (rest : List Char) :
    noDigitStart (dumpsPairsRest ps ++ '}' :: rest) = true := by
  cases ps with
  | nil => rfl
  | cons p ps =>
    obtain ⟨k, v⟩ := p
    rfl

theorem escapeCh_len_pos (c : Char) : 1 ≤ (escapeCh c).length := by
  unfold escapeCh
  split_ifs <;> simp [hex4Chars]

theorem flatMap_escape_len (cs : List Char) :
    cs.length ≤ (cs.flatMap escapeCh).length := by
  induction cs with
  | nil => simp
  | cons c cs ih =>
    rw [List.flatMap_cons, List.length_append, List.length_cons]
    have := escapeCh_len_pos c
    omega

/-! One-step unfoldings of the value scanner (definitional where the head
character is concrete). -/

theorem jparse_null (fuel : Nat) (r : List Char) :
    jparse (fuel + 1) ('n' :: 'u' :: 'l' :: 'l' :: r) = some (.null, r) := rfl

theorem jparse_true (fuel : Nat) (r : List Char) :
    jparse (fuel + 1) ('t' :: 'r' :: 'u' :: 'e' :: r) = some (.bool true, r) := rfl

theorem jparse_false (fuel : Nat) (r : List Char) :
    jparse (fuel + 1) ('f' :: 'a' :: 'l' :: 's' :: 'e' :: r) = some (.bool false, r) := rfl

theorem jparse_quote (fuel : Nat) (r : List Char) :
    jparse (fuel + 1) ('"' :: r)
      = (match lexStr fuel r with
         | some p => some (.str (String.mk p.1), p.2)
         | none => none) := rfl

theorem jparse_lbrack (fuel : Nat) (r : List Char) :
    jparse (fuel + 1) ('[' :: r)
      = (match dropWs r with
         | [] => none
         | c2 :: r2 =>
           if c2 = ']' then some (.arr [], r2)
           else
             match jparseItems fuel (c2 :: r2) with
             | some p => some (.arr p.1, p.2)
             | none => none) := rfl

theorem jparse_lbrace (fuel : Nat) (r : List Char) :
    jparse (fuel + 1) ('{' :: r)
      = (match dropWs r with
         | [] => none
         | c2 :: r2 =>
           if c2 = '}' then some (.obj [], r2)
           else
             match jparsePairs fuel (c2 :: r2) with
             | some p => some (.obj p.1, p.2)
             | none => none) := rfl

theorem jparse_minus (fuel : Nat) (t : List Char) :
    jparse (fuel + 1) ('-' :: t)
      = (match lexInt ('-' :: t) with
         | some p => some (.int p.1, p.2)
         | none => none) := rfl

theorem jparse_digit (fuel : Nat) (c : Char) (r : List Char) (hdig : isDigCh c = true) :
    jparse (fuel + 1) (c :: r)
      = (match lexInt (c :: r) with
         | some p => some (.int p.1, p.2)
         | none => none) := by
  obtain ⟨hn, ht, hf, hq, hlb, hlc, _, _, _, _, hws⟩ := digit_sep hdig
  simp only [jparse]
  rw [dropWs_cons_nonws hws]
  show (if c = 'n' then _ else _) = _
  rw [if_neg hn, if_neg ht, if_neg hf, if_neg hq, if_neg hlb, if_neg hlc,
    if_pos (by simp [hdig])]

theorem jparseItems_step (fuel : Nat) (cs : List Char) :
    jparseItems (fuel + 1) cs
      = (match jparse fuel cs with
         | none => none
         | some (v, r) =>
           match dropWs r with
           | [] => none
           | c :: r2 =>
             if c = ',' then
               match jparseItems fuel (dropWs r2) with
               | some p => some (v :: p.1, p.2)
               | none => none
             else if c = ']' then some ([v], r2)
             else none) := rfl

theorem jparsePairs_step (fuel : Nat) (cs : List Char) :
    jparsePairs (fuel + 1) cs
      = (match dropWs cs with
         | [] => none
         | c :: r =>
           if c = '"' then
             match lexStr fuel r with
             | none => none
             | some (k, r1) =>
               match dropWs r1 with
               | [] => none
               | c2 :: r2 =>
                 if c2 = ':' then
                   match jparse fuel (dropWs r2) with
                   | none => none
                   | some (v, r3) =>
                     match dropWs r3 with
                     | [] => none
                     | c3 :: r4 =>
                       if c3 = ',' then
                         match jparsePairs fuel (dropWs r4) with
                         | some p => some ((String.mk k, v) :: p.1, p.2)
                         | none => none
                       else if c3 = '}' then some ([(String.mk k, v)], r4)
                       else none
                 else none
           else none) := rfl

theorem jparse_lbrack_go (fuel : Nat) (c2 : Char) (r2 : List Char)
    (hws : jIsWsCh c2 = false) (hne : c2 ≠ ']') :
    jparse (fuel + 1) ('[' :: c2 :: r2)
      = (match jparseItems fuel (c2 :: r2) with
         | some p => some (.arr p.1, p.2)
         | none => none) := by
  rw [jparse_lbrack, dropWs_cons_nonws hws]
  show (if c2 = ']' then some (Json.arr [], r2)
        else
          match jparseItems fuel (c2 :: r2) with
          | some p => some (Json.arr p.1, p.2)
          | none => none)
      = (match jparseItems fuel (c2 :: r2) with
         | some p => some (Json.arr p.1, p.2)
         | none => none)
  rw [if_neg hne]

theorem jparse_lbrace_go (fuel : Nat) (c2 : Char) (r2 : List Char)
    (hws : jIsWsCh c2 = false) (hne : c2 ≠ '}') :
    jparse (fuel + 1) ('{' :: c2 :: r2)
      = (match jparsePairs fuel (c2 :: r2) with
         | some p => some (.obj p.1, p.2)
         | none => none) := by
  rw [jparse_lbrace, dropWs_cons_nonws hws]
  show (if c2 = '}' then some (Json.obj [], r2)
        else
          match jparsePairs fuel (c2 :: r2) with
          | some p => some (Json.obj p.1, p.2)
          | none => none)
      = (match jparsePairs fuel (c2 :: r2) with
         | some p => some (Json.obj p.1, p.2)
         | none => none)
  rw [if_neg hne]

mutual

/-- Scanning a serialized value recovers it (and consumes exactly its
characters), given enough fuel and a remainder that cannot extend a number. -/
theorem jparse_dumpsL : ∀ (j : Json) (fuel : Nat) (rest : List Char),
    (dumpsL j).length < fuel → noDigitStart rest = true →
    jparse fuel (dumpsL j ++ rest) = some (j, rest)
  | .null, fuel, rest, hf, _ => by
    cases fuel with
    | zero => exact absurd hf (by omega)
    | succ f =>
      show jparse (f + 1) ('n' :: 'u' :: 'l' :: 'l' :: rest) = some (.null, rest)
      exact jparse_null f rest
  | .bool true, fuel, rest, hf, _ => by
    cases fuel with
    | zero => exact absurd hf (by omega)
    | succ f =>
      show jparse (f + 1) ('t' :: 'r' :: 'u' :: 'e' :: rest) = some (.bool true, rest)
      exact jparse_true f rest
  | .bool false, fuel, rest, hf, _ => by
    cases fuel with
    | zero => exact absurd hf (by omega)
    | succ f =>
      show jparse (f + 1) ('f' :: 'a' :: 'l' :: 's' :: 'e' :: rest) = some (.bool false, rest)
      exact jparse_false f rest
  | .int i, fuel, rest, hf, hnd => by
    cases fuel with
    | zero => exact absurd hf (by omega)
    | succ f =>
      have hlex := lexInt_intChars i rest hnd
      by_cases hneg : i < 0
      · have harg : intChars i ++ rest = '-' :: (natChars i.natAbs ++ rest) := by
          simp [intChars, hneg]
        show jparse (f + 1) (intChars i ++ rest) = some (.int i, rest)
        rw [harg, jparse_minus, ← harg, hlex]
      · obtain ⟨hne, hdig, _⟩ := natChars_spec i.natAbs
        cases hcs : natChars i.natAbs with
        | nil => exact absurd hcs hne
        | cons c0 t0 =>
          have hc0 : isDigCh c0 = true := hdig c0 (by rw [hcs]; exact List.mem_cons_self _ _)
          have harg : intChars i ++ rest = c0 :: (t0 ++ rest) := by
            simp [intChars, hneg, hcs]
          show jparse (f + 1) (intChars i ++ rest) = some (.int i, rest)
          rw [harg, jparse_digit f c0 _ hc0, ← harg, hlex]
  | .str s, fuel, rest, hf, _ => by
    cases fuel with
    | zero => exact absurd hf (by omega)
    | succ f =>
      have hlen : s.data.length < f := by
        have h1 := flatMap_escape_len s.data
        have h2 : (dumpsL (.str s)).length = (s.data.flatMap escapeCh).length + 2 := by
          show (strLit s.data).length = _
          simp [strLit]
        omega
      have harg : dumpsL (.str s) ++ rest
          = '"' :: (s.data.flatMap escapeCh ++ '"' :: rest) := by
        show strLit s.data ++ rest = _
        simp [strLit]
      rw [harg, jparse_quote, lexStr_escaped s.data f rest hlen]
  | .arr [], fuel, rest, hf, _ => by
    cases fuel with
    | zero => exact absurd hf (by omega)
    | succ f =>
      show jparse (f + 1) ('[' :: ']' :: rest) = some (.arr [], rest)
      exact rfl
  | .arr (x :: xs), fuel, rest, hf, _ => by
    cases fuel with
    | zero => exact absurd hf (by omega)
    | succ f =>
      have hlen : (dumpsL x).length + (dumpsItemsRest xs).length + 1 < f := by
        have h2 : (dumpsL (.arr (x :: xs))).length
            = (dumpsL x).length + (dumpsItemsRest xs).length + 2 := by
          show ('[' :: (dumpsL x ++ (dumpsItemsRest xs ++ [']']))).length = _
          simp
          omega
        omega
      obtain ⟨c0, t0, hx, hws, hrb, _⟩ := dumpsL_head x
      have harg : dumpsL (.arr (x :: xs)) ++ rest
          = '[' :: (c0 :: (t0 ++ (dumpsItemsRest xs ++ ']' :: rest))) := by
        show ('[' :: (dumpsL x ++ (dumpsItemsRest xs ++ [']']))) ++ rest = _
        rw [hx]
        simp
      have key := jparseItems_dumps x xs f rest hlen
      rw [hx, List.cons_append] at key
      rw [harg, jparse_lbrack_go f c0 _ hws hrb, key]
  | .obj [], fuel, rest, hf, _ => by
    cases fuel with
    | zero => exact absurd hf (by omega)
    | succ f =>
      show jparse (f + 1) ('{' :: '}' :: rest) = some (.obj [], rest)
      exact rfl
  | .obj ((k, v) :: ps), fuel, rest, hf, _ => by
    cases fuel with
    | zero => exact absurd hf (by omega)
    | succ f =>
      have hlen : (strLit k.data).length + (dumpsL v).length
          + (dumpsPairsRest ps).length + 2 < f := by
        have h2 : (dumpsL (.obj ((k, v) :: ps))).length
            = (strLit k.data).length + (dumpsL v).length + (dumpsPairsRest ps).length + 4 := by
          show ('{' :: (strLit k.data ++ (':' :: ' ' ::
            (dumpsL v ++ (dumpsPairsRest ps ++ ['}']))))).length = _
          simp
          omega
        omega
      have harg : dumpsL (.obj ((k, v) :: ps)) ++ rest
          = '{' :: ('"' :: ((k.data.flatMap escapeCh ++ ['"']) ++ (':' :: ' ' ::
              (dumpsL v ++ (dumpsPairsRest ps ++ '}' :: rest))))) := by
        show ('{' :: (strLit k.data ++ (':' :: ' ' ::
            (dumpsL v ++ (dumpsPairsRest ps ++ ['}']))))) ++ rest = _
        simp [strLit]
      have key := jparsePairs_dumps k v ps f rest hlen
      rw [show strLit k.data ++ (':' :: ' ' :: (dumpsL v ++ (dumpsPairsRest ps ++ '}' :: rest)))
          = '"' :: ((k.data.flatMap escapeCh ++ ['"']) ++ (':' :: ' ' ::
              (dumpsL v ++ (dumpsPairsRest ps ++ '}' :: rest)))) from by simp [strLit]] at key
      rw [harg, jparse_lbrace_go f '"' _ (by decide) (by decide), key]

termination_by j _ _ _ _ => sizeOf j

theorem jparseItems_dumps : ∀ (x : Json) (xs : List Json) (fuel : Nat) (rest : List Char),
    (dumpsL x).length + (dumpsItemsRest xs).length + 1 < fuel →
    jparseItems fuel (dumpsL x ++ (dumpsItemsRest xs ++ ']' :: rest)) = some (x :: xs, rest)
  | x, [], fuel, rest, hb => by
    cases fuel with
    | zero => exact absurd hb (by omega)
    | succ f =>
      have hv := jparse_dumpsL x f (']' :: rest) (by
        simp only [dumpsItemsRest, List.length_nil] at hb
        omega) rfl
      show jparseItems (f + 1) (dumpsL x ++ (']' :: rest)) = some ([x], rest)
      rw [jparseItems_step, hv]
      show (match dropWs (']' :: rest) with
            | [] => none
            | c :: r2 =>
              if c = ',' then
                match jparseItems f (dropWs r2) with
                | some p => some (x :: p.1, p.2)
                | none => none
              else if c = ']' then some ([x], r2)
              else none) = some ([x], rest)
      rw [dropWs_cons_nonws (by decide)]
      show (if (']' : Char) = ',' then
              match jparseItems f (dropWs rest) with
              | some p => some (x :: p.1, p.2)
              | none => none
            else if (']' : Char) = ']' then some ([x], rest)
            else none) = some ([x], rest)
      rw [if_neg (by decide), if_pos rfl]
  | x, x2 :: xs2, fuel, rest, hb => by
    cases fuel with
    | zero => exact absurd hb (by omega)
    | succ f =>
      have hlenx : (dumpsL x).length < f := by
        simp only [dumpsItemsRest, List.length_cons, List.length_append] at hb
        omega
      have hlen2 : (dumpsL x2).length + (dumpsItemsRest xs2).length + 1 < f := by
        simp only [dumpsItemsRest, List.length_cons, List.length_append] at hb
        omega
      have hv := jparse_dumpsL x f
        (',' :: ' ' :: (dumpsL x2 ++ (dumpsItemsRest xs2 ++ ']' :: rest))) hlenx rfl
      have harg : dumpsL x ++ (dumpsItemsRest (x2 :: xs2) ++ ']' :: rest)
          = dumpsL x ++ (',' :: ' ' :: (dumpsL x2 ++ (dumpsItemsRest xs2 ++ ']' :: rest))) := by
        show dumpsL x ++ ((',' :: ' ' :: (dumpsL x2 ++ dumpsItemsRest xs2)) ++ ']' :: rest) = _
        simp
      have key := jparseItems_dumps x2 xs2 f rest hlen2
      rw [harg, jparseItems_step, hv]
      show (match dropWs (',' :: ' ' :: (dumpsL x2 ++ (dumpsItemsRest xs2 ++ ']' :: rest))) with
            | [] => none
            | c :: r2 =>
              if c = ',' then
                match jparseItems f (dropWs r2) with
                | some p => some (x :: p.1, p.2)
                | none => none
              else if c = ']' then some ([x], r2)
              else none) = some (x :: x2 :: xs2, rest)
      rw [dropWs_cons_nonws (by decide)]
      show (if (',' : Char) = ',' then
              match jparseItems f
                (dropWs (' ' :: (dumpsL x2 ++ (dumpsItemsRest xs2 ++ ']' :: rest)))) with
              | some p => some (x :: p.1, p.2)
              | none => none
            else if (',' : Char) = ']' then
              some ([x], ' ' :: (dumpsL x2 ++ (dumpsItemsRest xs2 ++ ']' :: rest)))
            else none) = some (x :: x2 :: xs2, rest)
      rw [if_pos rfl, dropWs_space, dropWs_dumpsL, key]

termination_by x xs _ _ _ => 1 + sizeOf x + sizeOf xs

theorem jparsePairs_dumps : ∀ (k : String) (v : Json) (ps : List (String × Json))
    (fuel : Nat) (rest : List Char),
    (strLit k.data).length + (dumpsL v).length + (dumpsPairsRest ps).length + 2 < fuel →
    jparsePairs fuel (strLit k.data ++ (':' :: ' ' ::
      (dumpsL v ++ (dumpsPairsRest ps ++ '}' :: rest))))
      = some ((k, v) :: ps, rest)
  | k, v, [], fuel, rest, hb => by
    cases fuel with
    | zero => exact absurd hb (by omega)
    | succ f =>
      have hklen : k.data.length < f := by
        have h1 := flatMap_escape_len k.data
        have h2 : (strLit k.data).length = (k.data.flatMap escapeCh).length + 2 := by
          simp [strLit]
        omega
      have hvlen : (dumpsL v).length < f := by
        have h2 : 2 ≤ (strLit k.data).length := by
          simp [strLit]
        omega
      have harg : strLit k.data ++ (':' :: ' ' ::
          (dumpsL v ++ (dumpsPairsRest [] ++ '}' :: rest)))
          = '"' :: (k.data.flatMap escapeCh ++ '"' :: (':' :: ' ' ::
              (dumpsL v ++ ('}' :: rest)))) := by
        show strLit k.data ++ (':' :: ' ' :: (dumpsL v ++ ([] ++ '}' :: rest))) = _
        simp [strLit]
      have hkey := lexStr_escaped k.data f
        (':' :: ' ' :: (dumpsL v ++ ('}' :: rest))) hklen
      have hv := jparse_dumpsL v f ('}' :: rest) hvlen rfl
      rw [harg, jparsePairs_step, dropWs_cons_nonws (by decide)]
      show (if ('"' : Char) = '"' then
              match lexStr f (k.data.flatMap escapeCh ++ '"' :: (':' :: ' ' ::
                  (dumpsL v ++ ('}' :: rest)))) with
              | none => none
              | some (k2, r1) =>
                match dropWs r1 with
                | [] => none
                | c2 :: r2 =>
                  if c2 = ':' then
                    match jparse f (dropWs r2) with
                    | none => none
                    | some (v2, r3) =>
                      match dropWs r3 with
                      | [] => none
                      | c3 :: r4 =>
                        if c3 = ',' then
                          match jparsePairs f (dropWs r4) with
                          | some p => some ((String.mk k2, v2) :: p.1, p.2)
                          | none => none
                        else if c3 = '}' then some ([(String.mk k2, v2)], r4)
                        else none
                  else none
            else none)
          = some ([(k, v)], rest)
      rw [if_pos rfl, hkey]
      show (match dropWs (':' :: ' ' :: (dumpsL v ++ ('}' :: rest))) with
            | [] => none
            | c2 :: r2 =>
              if c2 = ':' then
                match jparse f (dropWs r2) with
                | none => none
                | some (v2, r3) =>
                  match dropWs r3 with
                  | [] => none
                  | c3 :: r4 =>
                    if c3 = ',' then
                      match jparsePairs f (dropWs r4) with
                      | some p => some ((String.mk k.data, v2) :: p.1, p.2)
                      | none => none
                    else if c3 = '}' then some ([(String.mk k.data, v2)], r4)
                    else none
              else none) = some ([(k, v)], rest)
      rw [dropWs_cons_nonws (by decide)]
      show (if (':' : Char) = ':' then
              match jparse f (dropWs (' ' :: (dumpsL v ++ ('}' :: rest)))) with
              | none => none
              | some (v2, r3) =>
                match dropWs r3 with
                | [] => none
                | c3 :: r4 =>
                  if c3 = ',' then
                    match jparsePairs f (dropWs r4) with
                    | some p => some ((String.mk k.data, v2) :: p.1, p.2)
                    | none => none
                  else if c3 = '}' then some ([(String.mk k.data, v2)], r4)
                  else none
            else none) = some ([(k, v)], rest)
      rw [if_pos rfl, dropWs_space, dropWs_dumpsL, hv]
      show (match dropWs ('}' :: rest) with
            | [] => none
            | c3 :: r4 =>
              if c3 = ',' then
                match jparsePairs f (dropWs r4) with
                | some p => some ((String.mk k.data, v) :: p.1, p.2)
                | none => none
              else if c3 = '}' then some ([(String.mk k.data, v)], r4)
              else none) = some ([(k, v)], rest)
      rw [dropWs_cons_nonws (by decide)]
      show (if ('}' : Char) = ',' then
              match jparsePairs f (dropWs rest) with
              | some p => some ((String.mk k.data, v) :: p.1, p.2)
              | none => none
            else if ('}' : Char) = '}' then some ([(String.mk k.data, v)], rest)
            else none) = some ([(k, v)], rest)
      rw [if_neg (by decide), if_pos rfl]
  | k, v, (k2, v2) :: ps2, fuel, rest, hb => by
    cases fuel with
    | zero => exact absurd hb (by omega)
    | succ f =>
      have hklen : k.data.length < f := by
        have h1 := flatMap_escape_len k.data
        have h2 : (strLit k.data).length = (k.data.flatMap escapeCh).length + 2 := by
          simp [strLit]
        omega
      have hvlen : (dumpsL v).length < f := by
        have h2 : 2 ≤ (strLit k.data).length := by
          simp [strLit]
        omega
      have harg : strLit k.data ++ (':' :: ' ' ::
          (dumpsL v ++ (dumpsPairsRest ((k2, v2) :: ps2) ++ '}' :: rest)))
          = '"' :: (k.data.flatMap escapeCh ++ '"' :: (':' :: ' ' ::
              (dumpsL v ++ (dumpsPairsRest ((k2, v2) :: ps2) ++ '}' :: rest)))) := by
        simp [strLit]
      have hkey := lexStr_escaped k.data f
        (':' :: ' ' :: (dumpsL v ++ (dumpsPairsRest ((k2, v2) :: ps2) ++ '}' :: rest))) hklen
      have hv := jparse_dumpsL v f (dumpsPairsRest ((k2, v2) :: ps2) ++ '}' :: rest) hvlen
        (noDig_pairs _ rest)
      rw [harg, jparsePairs_step, dropWs_cons_nonws (by decide)]
      show (if ('"' : Char) = '"' then
              match lexStr f (k.data.flatMap escapeCh ++ '"' :: (':' :: ' ' ::
                  (dumpsL v ++ (dumpsPairsRest ((k2, v2) :: ps2) ++ '}' :: rest)))) with
              | none => none
              | some (kk, r1) =>
                match dropWs r1 with
                | [] => none
                | c2 :: r2 =>
                  if c2 = ':' then
                    match jparse f (dropWs r2) with
                    | none => none
                    | some (vv, r3) =>
                      match dropWs r3 with
                      | [] => none
                      | c3 :: r4 =>
                        if c3 = ',' then
                          match jparsePairs f (dropWs r4) with
                          | some p => some ((String.mk kk, vv) :: p.1, p.2)
                          | none => none
                        else if c3 = '}' then some ([(String.mk kk, vv)], r4)
                        else none
                  else none
            else none)
          = some ((k, v) :: (k2, v2) :: ps2, rest)
      rw [if_pos rfl, hkey]
      show (match dropWs (':' :: ' ' ::
              (dumpsL v ++ (dumpsPairsRest ((k2, v2) :: ps2) ++ '}' :: rest))) with
            | [] => none
            | c2 :: r2 =>
              if c2 = ':' then
                match jparse f (dropWs r2) with
                | none => none
                | some (vv, r3) =>
                  match dropWs r3 with
                  | [] => none
                  | c3 :: r4 =>
                    if c3 = ',' then
                      match jparsePairs f (dropWs r4) with
                      | some p => some ((String.mk k.data, vv) :: p.1, p.2)
                      | none => none
                    else if c3 = '}' then some ([(String.mk k.data, vv)], r4)
                    else none
              else none) = some ((k, v) :: (k2, v2) :: ps2, rest)
      rw [dropWs_cons_nonws (by decide)]
      show (if (':' : Char) = ':' then
              match jparse f (dropWs (' ' ::
                  (dumpsL v ++ (dumpsPairsRest ((k2, v2) :: ps2) ++ '}' :: rest)))) with
              | none => none
              | some (vv, r3) =>
                match dropWs r3 with
                | [] => none
                | c3 :: r4 =>
                  if c3 = ',' then
                    match jparsePairs f (dropWs r4) with
                    | some p => some ((String.mk k.data, vv) :: p.1, p.2)
                    | none => none
                  else if c3 = '}' then some ([(String.mk k.data, vv)], r4)
                  else none
            else none) = some ((k, v) :: (k2, v2) :: ps2, rest)
      rw [if_pos rfl, dropWs_space, dropWs_dumpsL, hv]
      show (match dropWs (dumpsPairsRest ((k2, v2) :: ps2) ++ '}' :: rest) with
            | [] => none
            | c3 :: r4 =>
              if c3 = ',' then
                match jparsePairs f (dropWs r4) with
                | some p => some ((String.mk k.data, v) :: p.1, p.2)
                | none => none
              else if c3 = '}' then some ([(String.mk k.data, v)], r4)
              else none) = some ((k, v) :: (k2, v2) :: ps2, rest)
      have hlen2 : (strLit k2.data).length + (dumpsL v2).length
          + (dumpsPairsRest ps2).length + 2 < f := by
        have h3 : (dumpsPairsRest ((k2, v2) :: ps2)).length
            = (strLit k2.data).length + (dumpsL v2).length
              + (dumpsPairsRest ps2).length + 4 := by
          show ((',' :: ' ' :: (strLit k2.data ++ (':' :: ' ' ::
            (dumpsL v2 ++ dumpsPairsRest ps2))))).length = _
          simp
          omega
        omega
      have key := jparsePairs_dumps k2 v2 ps2 f rest hlen2
      have harg2 : dumpsPairsRest ((k2, v2) :: ps2) ++ '}' :: rest
          = ',' :: ' ' :: (strLit k2.data ++ (':' :: ' ' ::
              (dumpsL v2 ++ (dumpsPairsRest ps2 ++ '}' :: rest)))) := by
        show (',' :: ' ' :: (strLit k2.data ++ (':' :: ' ' ::
          (dumpsL v2 ++ dumpsPairsRest ps2)))) ++ '}' :: rest = _
        simp
      rw [harg2, dropWs_cons_nonws (by decide)]
      show (if (',' : Char) = ',' then
              match jparsePairs f
                (dropWs (' ' :: (strLit k2.data ++ (':' :: ' ' ::
                  (dumpsL v2 ++ (dumpsPairsRest ps2 ++ '}' :: rest)))))) with
              | some p => some ((String.mk k.data, v) :: p.1, p.2)
              | none => none
            else if (',' : Char) = '}' then
              some ([(String.mk k.data, v)],
                ' ' :: (strLit k2.data ++ (':' :: ' ' ::
                  (dumpsL v2 ++ (dumpsPairsRest ps2 ++ '}' :: rest)))))
            else none) = some ((k, v) :: (k2, v2) :: ps2, rest)
      rw [if_pos rfl, dropWs_space, dropWs_strLit, key]
termination_by _ v ps _ _ _ => 1 + sizeOf v + sizeOf ps

end

/-- **Codec round-trip**: `json.loads (json.dumps j) = j` for every value in
the modelled domain. -/
theorem loads_dumps (j : Json) : loads (dumps j) = some j := by
  have h := jparse_dumpsL j ((dumpsL j).length + 1) [] (by omega) rfl
  rw [List.append_nil] at h
  show (match jparse ((dumpsL j).length + 1) (dumpsL j) with
        | some (jj, r) => if (dropWs r).isEmpty then some jj else none
        | none => none) = some j
  rw [h]
  rfl

/-! ## Generic helpers for the handler-level proofs -/

theorem optMapM_forall2 {α β : Type} (f : α → Option β) :
    ∀ {l : List α} {out : List β}, optMapM f l = some out →
      List.Forall₂ (fun a b => f a = some b) l out := by
  intro l
  induction l with
  | nil =>
    intro out h
    simp only [optMapM] at h
    cases h
    exact List.Forall₂.nil
  | cons a t ih =>
    intro out h
    simp only [optMapM] at h
    cases hf : f a with
    | none => rw [hf] at h; cases h
    | some b =>
      rw [hf] at h
      cases ht : optMapM f t with
      | none => rw [ht] at h; cases h
      | some bs =>
        rw [ht] at h
        cases h
        exact List.Forall₂.cons hf (ih ht)

theorem optMapM_isSome {α β : Type} (f : α → Option β) :
    ∀ {l : List α}, (∀ a ∈ l, (f a).isSome = true) → ∃ out, optMapM f l = some out := by
  intro l
  induction l with
  | nil => intro _; exact ⟨[], rfl⟩
  | cons a t ih =>
    intro h
    obtain ⟨b, hb⟩ := Option.isSome_iff_exists.1 (h a (by simp))
    obtain ⟨bs, hbs⟩ := ih (fun x hx => h x (by simp [hx]))
    refine ⟨b :: bs, ?_⟩
    simp only [optMapM, hb, hbs]

theorem forall2_mem_left {α β : Type} {R : α → β → Prop} :
    ∀ {l : List α} {out : List β}, List.Forall₂ R l out → ∀ {a}, a ∈ l → ∃ b ∈ out, R a b := by
  intro l out h
  induction h with
  | nil => intro a ha; cases ha
  | cons hr _ ih =>
    intro a ha
    rcases List.mem_cons.1 ha with rfl | ha2
    · exact ⟨_, by simp, hr⟩
    · obtain ⟨b, hb1, hb2⟩ := ih ha2
      exact ⟨b, by simp [hb1], hb2⟩

theorem forall2_mem_right {α β : Type} {R : α → β → Prop} :
    ∀ {l : List α} {out : List β}, List.Forall₂ R l out → ∀ {b}, b ∈ out → ∃ a ∈ l, R a b := by
  intro l out h
  induction h with
  | nil => intro b hb; cases hb
  | cons hr _ ih =>
    intro b hb
    rcases List.mem_cons.1 hb with rfl | hb2
    · exact ⟨_, by simp, hr⟩
    · obtain ⟨a, ha1, ha2⟩ := ih hb2
      exact ⟨a, by simp [ha1], ha2⟩

theorem forall2_pairwise {α β : Type} {R : α → β → Prop} {S : α → α → Prop}
    {T : β → β → Prop}
    (hcomp : ∀ a b a2 b2, R a b → R a2 b2 → S a a2 → T b b2) :
    ∀ {l : List α} {out : List β}, List.Forall₂ R l out → l.Pairwise S → out.Pairwise T := by
  intro l out h
  induction h with
  | nil => intro _; exact List.Pairwise.nil
  | cons hr htail ih =>
    intro hp
    rcases List.pairwise_cons.1 hp with ⟨hhead, htl⟩
    refine List.pairwise_cons.2 ⟨?_, ih htl⟩
    intro b2 hb2
    obtain ⟨a2, ha2, hra2⟩ := forall2_mem_right htail hb2
    exact hcomp _ _ _ _ hr hra2 (hhead a2 ha2)

theorem hasKey_ne_nil {d : Dict} {k : String} (h : hasKey d k = true) : d ≠ [] := by
  intro rfl2
  subst rfl2
  simp [hasKey, dictGet] at h

theorem isEmpty_false_of_ne {d : Dict} (h : d ≠ []) : d.isEmpty = false := by
  cases d with
  | nil => exact absurd rfl h
  | cons a t => rfl

theorem firstMissing_split (d : Dict) :
    ∀ (pre : List String) (f : String) (post : List String),
      (∀ g ∈ pre, hasKey d g = true) → hasKey d f = false →
      firstMissing d (pre ++ f :: post) = some f := by
  intro pre
  induction pre with
  | nil =>
    intro f post _ hf
    simp [firstMissing, hf]
  | cons g t ih =>
    intro f post hpre hf
    have hg : hasKey d g = true := hpre g (by simp)
    rw [List.cons_append]
    simp only [firstMissing, hg, if_pos]
    exact ih f post (fun x hx => hpre x (by simp [hx])) hf

theorem firstMissing_none (d : Dict) :
    ∀ (fields : List String), (∀ g ∈ fields, hasKey d g = true) →
      firstMissing d fields = none := by
  intro fields
  induction fields with
  | nil => intro _; rfl
  | cons g t ih =>
    intro h
    have hg : hasKey d g = true := h g (by simp)
    simp only [firstMissing, hg, if_pos]
    exact ih (fun x hx => h x (by simp [hx]))

theorem hasKey_of_getD_arr {d : Dict} {k : String} {xs : List Json}
    (h : dictGetD d k .null = .arr xs) : hasKey d k = true := by
  cases hg : dictGet d k with
  | none =>
    rw [dictGetD, hg] at h
    simp at h
  | some v => simp [hasKey, hg]

theorem dictGetD_of_get {d : Dict} {k : String} {v : Json} (h : dictGet d k = some v)
    (dflt : Json) : dictGetD d k dflt = v := by
  rw [dictGetD, h]
  rfl

theorem dictGetD_of_absent {d : Dict} {k : String} (h : hasKey d k = false) (dflt : Json) :
    dictGetD d k dflt = dflt := by
  rw [dictGetD]
  cases hg : dictGet d k with
  | none => rfl
  | some v => rw [hasKey, hg] at h; cases h

theorem truthyKey_false_of_absent {d : Dict} {k : String} (h : hasKey d k = false) :
    truthyKey d k = false := by
  rw [truthyKey]
  cases hg : dictGet d k with
  | none => rfl
  | some v => rw [hasKey, hg] at h; cases h

theorem parseOrderRow_some {r : OrderRow} {j : Json} (h : loads r.items = some j) :
    parseOrderRow r
      = some { id := r.id, customer_name := r.customer_name,
               customer_email := r.customer_email, customer_phone := r.customer_phone,
               customer_address := r.customer_address, total_amount := r.total_amount,
               items := j, status := r.status, created_at := r.created_at,
               order_date := mysqlDateFormat r.created_at } := by
  simp [parseOrderRow, h]

theorem parseOrderRow_isSome {r : OrderRow} (h : (loads r.items).isSome = true) :
    (parseOrderRow r).isSome = true := by
  obtain ⟨j, hj⟩ := Option.isSome_iff_exists.1 h
  rw [parseOrderRow_some hj]
  rfl

theorem parseOrderRow_fields {r : OrderRow} {o : OrderOut} (h : parseOrderRow r = some o) :
    o.created_at = r.created_at ∧ o.status = r.status ∧
    o.order_date = mysqlDateFormat r.created_at ∧ loads r.items = some o.items := by
  cases hl : loads r.items with
  | none => rw [parseOrderRow, hl] at h; cases h
  | some j =>
    rw [parseOrderRow_some hl] at h
    cases h
    exact ⟨rfl, rfl, rfl, rfl⟩

theorem dateShape_mysql (t : DateTime) : dateShape (mysqlDateFormat t) = true := by
  have hd : ∀ n : Nat, isDigCh (Char.ofNat (48 + n % 10)) = true := fun n =>
    isDigCh_ofNat _ (Nat.mod_lt _ (by omega))
  show (isDigCh (Char.ofNat (48 + t.year / 1000 % 10)) &&
        isDigCh (Char.ofNat (48 + t.year / 100 % 10)) &&
        isDigCh (Char.ofNat (48 + t.year / 10 % 10)) &&
        isDigCh (Char.ofNat (48 + t.year % 10)) && ('-' == '-') &&
        isDigCh (Char.ofNat (48 + t.month / 10 % 10)) &&
        isDigCh (Char.ofNat (48 + t.month % 10)) && ('-' == '-') &&
        isDigCh (Char.ofNat (48 + t.day / 10 % 10)) &&
        isDigCh (Char.ofNat (48 + t.day % 10)) && (' ' == ' ') &&
        isDigCh (Char.ofNat (48 + t.hour / 10 % 10)) &&
        isDigCh (Char.ofNat (48 + t.hour % 10)) && (':' == ':') &&
        isDigCh (Char.ofNat (48 + t.minute / 10 % 10)) &&
        isDigCh (Char.ofNat (48 + t.minute % 10)) && (':' == ':') &&
        isDigCh (Char.ofNat (48 + t.second / 10 % 10)) &&
        isDigCh (Char.ofNat (48 + t.second % 10))) = true
  simp [hd]

/-! ## Claims -/

/-- Claim C1: for every non-empty `createOrder` payload, validation scans
`customer_name`, `customer_email`, `customer_address`, `total_amount`,
`items` in this fixed order, stops at the first absent key, and fails with a
400 validation response whose message names exactly that first missing
field, leaving the orders table unchanged. -/
theorem C1_create_order_first_missing_field
    (d : Dict) (env : ConnEnv) (insertOk : Bool) (db : OrdersDB) (now : DateTime)
    (pre post : List String) (f : String)
    (hsplit : requiredFields = pre ++ f :: post)
    (hpre : ∀ g ∈ pre, hasKey d g = true)
    (hmiss : hasKey d f = false)
    (hne : d ≠ []) :
    (create_order (some d) env insertOk db now).status = 400 ∧
    (create_order (some d) env insertOk db now).error
      = some ("Missing required field: " ++ f) ∧
    (create_order (some d) env insertOk db now).db = db := by
  have hfm : firstMissing d requiredFields = some f := by
    rw [hsplit]
    exact firstMissing_split d pre f post hpre hmiss
  have hde : d.isEmpty = false := isEmpty_false_of_ne hne
  have hco : create_order (some d) env insertOk db now
      = { status := 400, error := some ("Missing required field: " ++ f), message := none,
          order_id := none, respStatus := none, db := db,
          connOpened := false, connClosed := false } := by
    simp [create_order, hde, hfm]
  rw [hco]
  exact ⟨rfl, rfl, rfl⟩

/-- Witness for C1 at a concrete payload holding only `customer_name`: the
scan stops at `customer_email`. -/
theorem C1_witness :
    (create_order (some [("customer_name", Json.str "A")]) (fun _ => .ok 0) true
      ⟨[], 1⟩ ⟨2026, 1, 1, 0, 0, 0⟩).status = 400 ∧
    (create_order (some [("customer_name", Json.str "A")]) (fun _ => .ok 0) true
      ⟨[], 1⟩ ⟨2026, 1, 1, 0, 0, 0⟩).error
      = some ("Missing required field: " ++ "customer_email") ∧
    (create_order (some [("customer_name", Json.str "A")]) (fun _ => .ok 0) true
      ⟨[], 1⟩ ⟨2026, 1, 1, 0, 0, 0⟩).db = ⟨[], 1⟩ :=
  C1_create_order_first_missing_field
    [("customer_name", Json.str "A")] (fun _ => .ok 0) true ⟨[], 1⟩ ⟨2026, 1, 1, 0, 0, 0⟩
    ["customer_name"] ["customer_address", "total_amount", "items"] "customer_email"
    rfl (by decide) (by decide) (List.cons_ne_nil _ _)

/-- Claim C4 (counterexample): `createOrder({})` does not produce the
missing-field message for `customer_name`; the empty dict is falsy, so the
`not data` guard answers first with "No data provided". -/
theorem C4_counterexample :
    (create_order (some []) (fun _ => .ok 0) true ⟨[], 1⟩ ⟨2026, 1, 1, 0, 0, 0⟩).status
      = 400 ∧
    (create_order (some []) (fun _ => .ok 0) true ⟨[], 1⟩ ⟨2026, 1, 1, 0, 0, 0⟩).error
      = some "No data provided" ∧
    (create_order (some []) (fun _ => .ok 0) true ⟨[], 1⟩ ⟨2026, 1, 1, 0, 0, 0⟩).error
      ≠ some ("Missing required field: " ++ "customer_name") := by
  refine ⟨rfl, rfl, by decide⟩

/-- Claim C4 (amended): calling `createOrder` with the empty payload fails
with the 400 validation error "No data provided" — the empty dict is treated
like an absent payload, and no missing-field message is produced for it. -/
theorem C4_amended (env : ConnEnv) (insertOk : Bool) (db : OrdersDB) (now : DateTime) :
    create_order (some []) env insertOk db now = noDataResult db := rfl

/-- Claim C7: bootstrap inserts exactly the four fixed sample rows if and
only if the products count is zero, and a second bootstrap run against the
already-populated catalog leaves the rows unchanged. -/
theorem C7_bootstrap_seed_guard (db : ProductsDB) (now now2 : DateTime) :
    (((init_db db now).rows = db.rows ++ seedProducts db.nextId now ∧
        (seedProducts db.nextId now).length = 4) ↔ db.rows.length = 0) ∧
    (db.rows.length ≠ 0 → init_db db now = db) ∧
    init_db (init_db db now) now2 = init_db db now := by
  refine ⟨⟨?_, ?_⟩, ?_, ?_⟩
  · rintro ⟨h1, _⟩
    by_contra hne
    rw [init_db, if_neg hne] at h1
    have hlen := congrArg List.length h1
    rw [List.length_append] at hlen
    simp [seedProducts] at hlen
  · intro h0
    rw [init_db, if_pos h0]
    exact ⟨rfl, rfl⟩
  · intro hne
    rw [init_db, if_neg hne]
  · by_cases h0 : db.rows.length = 0
    · have hmid : init_db db now
          = ⟨db.rows ++ seedProducts db.nextId now, db.nextId + 4⟩ := by
        rw [init_db, if_pos h0]
      rw [hmid, init_db, if_neg (by simp [seedProducts])]
    · have hmid : init_db db now = db := by
        rw [init_db, if_neg h0]
      rw [hmid, init_db, if_neg h0]

/-- Witness for C7: an empty catalog receives the four sample rows, and a
populated one is left untouched. -/
theorem C7_witness :
    (init_db ⟨[], 1⟩ ⟨2026, 1, 1, 0, 0, 0⟩).rows
      = [] ++ seedProducts 1 ⟨2026, 1, 1, 0, 0, 0⟩ ∧
    init_db (init_db ⟨[], 1⟩ ⟨2026, 1, 1, 0, 0, 0⟩) ⟨2026, 1, 2, 0, 0, 0⟩
      = init_db ⟨[], 1⟩ ⟨2026, 1, 1, 0, 0, 0⟩ :=
  ⟨((C7_bootstrap_seed_guard ⟨[], 1⟩ ⟨2026, 1, 1, 0, 0, 0⟩ ⟨2026, 1, 2, 0, 0, 0⟩).1.2 rfl).1,
   (C7_bootstrap_seed_guard ⟨[], 1⟩ ⟨2026, 1, 1, 0, 0, 0⟩ ⟨2026, 1, 2, 0, 0, 0⟩).2.2⟩

/-- Claim C8: `get_db_connection` makes at most 5 connect attempts with a
fixed 5-second sleep between consecutive attempts, returns the connection of
the first successful attempt, and after the fifth failure propagates that
last failure. -/
theorem C8_connection_retry_policy :
    (∀ env : ConnEnv, (get_db_connection env).attempts ≤ 5) ∧
    (∀ (env : ConnEnv) (msgs : Nat → String), (∀ k, k < 5 → env k = .error (msgs k)) →
      get_db_connection env
        = { result := .error (msgs 4), attempts := 5, sleepSec := 20 }) ∧
    (∀ (env : ConnEnv) (k : Nat) (c : ConnId), k < 5 →
      (∀ i, i < k → ∃ e, env i = .error e) → env k = .ok c →
      get_db_connection env = { result := .ok c, attempts := k + 1, sleepSec := 5 * k }) := by
  have hrange : List.range 5 = [0, 1, 2, 3, 4] := rfl
  refine ⟨?_, ?_, ?_⟩
  · intro env
    have hgen : ∀ l : List Nat, (connTry env l).attempts ≤ l.length := by
      intro l
      induction l with
      | nil => simp [connTry]
      | cons a t ih =>
        cases ha : env a with
        | ok c => simp [connTry, ha]
        | error e =>
          cases t with
          | nil => simp [connTry, ha]
          | cons b t2 =>
            have hstep : connTry env (a :: b :: t2)
                = { result := (connTry env (b :: t2)).result,
                    attempts := (connTry env (b :: t2)).attempts + 1,
                    sleepSec := (connTry env (b :: t2)).sleepSec + 5 } := by
              simp [connTry, ha]
            rw [hstep]
            show (connTry env (b :: t2)).attempts + 1 ≤ (a :: b :: t2).length
            simp only [List.length_cons] at ih ⊢
            omega
    have := hgen (List.range 5)
    simpa using this
  · intro env msgs h
    have h0 := h 0 (by omega)
    have h1 := h 1 (by omega)
    have h2 := h 2 (by omega)
    have h3 := h 3 (by omega)
    have h4 := h 4 (by omega)
    show connTry env [0, 1, 2, 3, 4] = _
    simp [connTry, h0, h1, h2, h3, h4]
  · intro env k c hk hprev hok
    interval_cases k
    · show connTry env [0, 1, 2, 3, 4] = _
      simp [connTry, hok]
    · obtain ⟨e0, he0⟩ := hprev 0 (by omega)
      show connTry env [0, 1, 2, 3, 4] = _
      simp [connTry, he0, hok]
    · obtain ⟨e0, he0⟩ := hprev 0 (by omega)
      obtain ⟨e1, he1⟩ := hprev 1 (by omega)
      show connTry env [0, 1, 2, 3, 4] = _
      simp [connTry, he0, he1, hok]
    · obtain ⟨e0, he0⟩ := hprev 0 (by omega)
      obtain ⟨e1, he1⟩ := hprev 1 (by omega)
      obtain ⟨e2, he2⟩ := hprev 2 (by omega)
      show connTry env [0, 1, 2, 3, 4] = _
      simp [connTry, he0, he1, he2, hok]
    · obtain ⟨e0, he0⟩ := hprev 0 (by omega)
      obtain ⟨e1, he1⟩ := hprev 1 (by omega)
      obtain ⟨e2, he2⟩ := hprev 2 (by omega)
      obtain ⟨e3, he3⟩ := hprev 3 (by omega)
      show connTry env [0, 1, 2, 3, 4] = _
      simp [connTry, he0, he1, he2, he3, hok]

/-- Witness for C8: with a connection that always fails the loop makes all 5
attempts and sleeps 20 seconds; with one that succeeds at the third attempt
it stops there after 10 seconds of sleeping. -/
theorem C8_witness :
    get_db_connection (fun _ => .error "down")
      = { result := .error "down", attempts := 5, sleepSec := 20 } ∧
    get_db_connection (fun i => if i < 2 then .error "down" else .ok 9)
      = { result := .ok 9, attempts := 3, sleepSec := 10 } :=
  ⟨C8_connection_retry_policy.2.1 (fun _ => .error "down") (fun _ => "down")
      (fun _ _ => rfl),
   C8_connection_retry_policy.2.2 (fun i => if i < 2 then .error "down" else .ok 9) 2 9
      (by omega) (fun i hi => ⟨"down", by interval_cases i <;> rfl⟩) rfl⟩

/-- Claim C10: `addProduct` rejects any payload whose `price` key is present
but holds a falsy value (`0`, `""`, ...), answering the 400 validation error
"Name and price are required" and inserting nothing, even though `price` was
provided and non-null. -/
theorem C10_add_product_falsy_price
    (d : Dict) (env : ConnEnv) (insertOk : Bool) (db : ProductsDB) (now : DateTime)
    (p : Json)
    (hname : truthyKey d "name" = true)
    (hp : dictGet d "price" = some p)
    (hfalsy : jTruthy p = false) :
    (add_product (some d) env insertOk db now).status = 400 ∧
    (add_product (some d) env insertOk db now).error = some "Name and price are required" ∧
    (add_product (some d) env insertOk db now).db = db := by
  have hpk : truthyKey d "price" = false := by
    simp [truthyKey, hp, hfalsy]
  have hco : add_product (some d) env insertOk db now
      = { status := 400, error := some "Name and price are required", message := none,
          product_id := none, db := db, connOpened := false, connClosed := false } := by
    simp [add_product, hname, hpk]
  rw [hco]
  exact ⟨rfl, rfl, rfl⟩

/-- Witness for C10: price `0` with a perfectly good name is rejected. -/
theorem C10_witness :
    (add_product (some [("name", Json.str "Widget"), ("price", Json.int 0)])
      (fun _ => .ok 0) true ⟨[], 1⟩ ⟨2026, 1, 1, 0, 0, 0⟩).status = 400 ∧
    (add_product (some [("name", Json.str "Widget"), ("price", Json.int 0)])
      (fun _ => .ok 0) true ⟨[], 1⟩ ⟨2026, 1, 1, 0, 0, 0⟩).error
      = some "Name and price are required" ∧
    (add_product (some [("name", Json.str "Widget"), ("price", Json.int 0)])
      (fun _ => .ok 0) true ⟨[], 1⟩ ⟨2026, 1, 1, 0, 0, 0⟩).db = ⟨[], 1⟩ :=
  C10_add_product_falsy_price
    [("name", Json.str "Widget"), ("price", Json.int 0)] (fun _ => .ok 0) true
    ⟨[], 1⟩ ⟨2026, 1, 1, 0, 0, 0⟩ (Json.int 0) (by decide) rfl rfl

/-- Claim C5: `addProduct` answers the 400 validation error whenever `name`
is absent or the empty string or `price` is absent; when name and price pass
the guard, the connection opens, the price coerces and the insert succeeds,
the new product is stored with the documented defaults (`description` empty,
`image_url` null, `category` "General", `stock_quantity` 10) and the newly
assigned identifier is returned. -/
theorem C5_add_product_validation_and_defaults :
    (∀ (d : Dict) (env : ConnEnv) (insertOk : Bool) (db : ProductsDB) (now : DateTime),
      (hasKey d "name" = false ∨ dictGet d "name" = some (.str "") ∨
        hasKey d "price" = false) →
      (add_product (some d) env insertOk db now).status = 400 ∧
      (add_product (some d) env insertOk db now).error
        = some "Name and price are required" ∧
      (add_product (some d) env insertOk db now).db = db) ∧
    (∀ (d : Dict) (env : ConnEnv) (db : ProductsDB) (now : DateTime) (c : ConnId) (p : Rat),
      truthyKey d "name" = true → truthyKey d "price" = true →
      (get_db_connection env).result = .ok c →
      pyFloat (dictGetD d "price" .null) = some p →
      hasKey d "description" = false → hasKey d "image_url" = false →
      hasKey d "category" = false → hasKey d "stock_quantity" = false →
      add_product (some d) env true db now
        = { status := 200, error := none, message := some "Product added successfully",
            product_id := some db.nextId,
            db := { rows := db.rows ++
                      [{ id := db.nextId, name := dictGetD d "name" .null, price := p,
                         description := .str "", image_url := .null,
                         category := .str "General", stock_quantity := .int 10,
                         created_at := now }],
                    nextId := db.nextId + 1 },
            connOpened := true, connClosed := true }) := by
  constructor
  · intro d env insertOk db now h
    have hguard : (!truthyKey d "name" || !truthyKey d "price") = true := by
      rcases h with h | h | h
      · rw [truthyKey_false_of_absent h]
        rfl
      · rw [truthyKey, h]
        rfl
      · rw [truthyKey_false_of_absent h]
        simp
    have hco : add_product (some d) env insertOk db now
        = { status := 400, error := some "Name and price are required", message := none,
            product_id := none, db := db, connOpened := false, connClosed := false } := by
      simp only [add_product, hguard, if_pos]
    rw [hco]
    exact ⟨rfl, rfl, rfl⟩
  · intro d env db now c p hn hp hc hf hdesc himg hcat hst
    simp [add_product, hn, hp, hc, hf, dictGetD_of_absent hdesc, dictGetD_of_absent himg,
      dictGetD_of_absent hcat, dictGetD_of_absent hst]

/-- Witness for C5: `{name: "Widget"}` without a price is rejected with the
validation error, and `{name: "Mouse", price: 19}` is stored with the default
description, image, category and stock and gets id 1. -/
theorem C5_witness :
    ((add_product (some [("name", Json.str "Widget")]) (fun _ => .ok 0) true ⟨[], 1⟩
        ⟨2026, 1, 1, 0, 0, 0⟩).status = 400 ∧
      (add_product (some [("name", Json.str "Widget")]) (fun _ => .ok 0) true ⟨[], 1⟩
        ⟨2026, 1, 1, 0, 0, 0⟩).error = some "Name and price are required" ∧
      (add_product (some [("name", Json.str "Widget")]) (fun _ => .ok 0) true ⟨[], 1⟩
        ⟨2026, 1, 1, 0, 0, 0⟩).db = ⟨[], 1⟩) ∧
    add_product (some [("name", Json.str "Mouse"), ("price", Json.int 19)])
        (fun _ => .ok 0) true ⟨[], 1⟩ ⟨2026, 1, 1, 0, 0, 0⟩
      = { status := 200, error := none, message := some "Product added successfully",
          product_id := some 1,
          db := { rows := [{ id := 1, name := Json.str "Mouse",
                             price := ((19 : Int) : Rat), description := .str "",
                             image_url := .null, category := .str "General",
                             stock_quantity := .int 10,
                             created_at := ⟨2026, 1, 1, 0, 0, 0⟩ }],
                  nextId := 2 },
          connOpened := true, connClosed := true } :=
  ⟨C5_add_product_validation_and_defaults.1 [("name", Json.str "Widget")]
      (fun _ => .ok 0) true ⟨[], 1⟩ ⟨2026, 1, 1, 0, 0, 0⟩ (Or.inr (Or.inr (by decide))),
   C5_add_product_validation_and_defaults.2
      [("name", Json.str "Mouse"), ("price", Json.int 19)] (fun _ => .ok 0) ⟨[], 1⟩
      ⟨2026, 1, 1, 0, 0, 0⟩ 0 ((19 : Int) : Rat) rfl rfl rfl rfl rfl rfl rfl rfl⟩

/-- Claim C3 (counterexample): a present but non-coercible `price` /
`total_amount` (the string "abc") is NOT answered with a 400 validation
error: `float(...)` raises inside the `try` block after the connection was
opened, so the broad `except` answers 500. -/
theorem C3_counterexample :
    (add_product (some [("name", Json.str "W"), ("price", Json.str "abc")])
        (fun _ => .ok 0) true ⟨[], 1⟩ ⟨2026, 1, 1, 0, 0, 0⟩).status = 500 ∧
    (add_product (some [("name", Json.str "W"), ("price", Json.str "abc")])
        (fun _ => .ok 0) true ⟨[], 1⟩ ⟨2026, 1, 1, 0, 0, 0⟩).status ≠ 400 ∧
    (create_order (some [("customer_name", Json.str "A"), ("customer_email", Json.str "E"),
        ("customer_address", Json.str "S"), ("total_amount", Json.str "abc"),
        ("items", Json.arr [Json.int 1])])
        (fun _ => .ok 0) true ⟨[], 1⟩ ⟨2026, 1, 1, 0, 0, 0⟩).status = 500 ∧
    (create_order (some [("customer_name", Json.str "A"), ("customer_email", Json.str "E"),
        ("customer_address", Json.str "S"), ("total_amount", Json.str "abc"),
        ("items", Json.arr [Json.int 1])])
        (fun _ => .ok 0) true ⟨[], 1⟩ ⟨2026, 1, 1, 0, 0, 0⟩).status ≠ 400 := by
  exact ⟨rfl, by decide, rfl, by decide⟩

/-- Claim C3 (amended): a present but non-coercible `price` (in `addProduct`)
or `total_amount` (in `createOrder`) that reaches the conversion makes the
handler answer a 500 response with the float-conversion error, not a 400
validation response. -/
theorem C3_amended (d : Dict) (env : ConnEnv) (db : ProductsDB) (odb : OrdersDB)
    (now : DateTime) (c : ConnId) (insertOk : Bool) :
    (truthyKey d "name" = true → truthyKey d "price" = true →
      (get_db_connection env).result = .ok c →
      pyFloat (dictGetD d "price" .null) = none →
      (add_product (some d) env insertOk db now).status = 500 ∧
      (add_product (some d) env insertOk db now).error
        = some "could not convert value to float") ∧
    (d.isEmpty = false → firstMissing d requiredFields = none →
      (∃ x xs, dictGetD d "items" .null = .arr (x :: xs)) →
      (get_db_connection env).result = .ok c →
      pyFloat (dictGetD d "total_amount" .null) = none →
      (create_order (some d) env insertOk odb now).status = 500 ∧
      (create_order (some d) env insertOk odb now).error
        = some "could not convert value to float") := by
  constructor
  · intro hn hp hc hf
    have hco : add_product (some d) env insertOk db now
        = { status := 500, error := some "could not convert value to float", message := none,
            product_id := none, db := db, connOpened := true, connClosed := false } := by
      simp [add_product, hn, hp, hc, hf]
    rw [hco]
    exact ⟨rfl, rfl⟩
  · intro hde hfm hits hc hf
    obtain ⟨x, xs, hit⟩ := hits
    have hco : create_order (some d) env insertOk odb now
        = { status := 500, error := some "could not convert value to float", message := none,
            order_id := none, respStatus := none, db := odb,
            connOpened := true, connClosed := false } := by
      simp [create_order, hde, hfm, hit, hc, hf]
    rw [hco]
    exact ⟨rfl, rfl⟩

/-- Witness for C3 (amended) at the counterexample payloads: price "abc" and
total_amount "abc" both land in the 500 float-conversion outcome. -/
theorem C3_witness :
    ((add_product (some [("name", Json.str "W"), ("price", Json.str "abc")])
        (fun _ => .ok 0) true ⟨[], 1⟩ ⟨2026, 1, 1, 0, 0, 0⟩).status = 500 ∧
      (add_product (some [("name", Json.str "W"), ("price", Json.str "abc")])
        (fun _ => .ok 0) true ⟨[], 1⟩ ⟨2026, 1, 1, 0, 0, 0⟩).error
        = some "could not convert value to float") ∧
    ((create_order (some [("customer_name", Json.str "A"), ("customer_email", Json.str "E"),
        ("customer_address", Json.str "S"), ("total_amount", Json.str "abc"),
        ("items", Json.arr [Json.int 1])])
        (fun _ => .ok 0) true ⟨[], 1⟩ ⟨2026, 1, 1, 0, 0, 0⟩).status = 500 ∧
      (create_order (some [("customer_name", Json.str "A"), ("customer_email", Json.str "E"),
        ("customer_address", Json.str "S"), ("total_amount", Json.str "abc"),
        ("items", Json.arr [Json.int 1])])
        (fun _ => .ok 0) true ⟨[], 1⟩ ⟨2026, 1, 1, 0, 0, 0⟩).error
        = some "could not convert value to float") :=
  ⟨(C3_amended [("name", Json.str "W"), ("price", Json.str "abc")] (fun _ => .ok 0)
      ⟨[], 1⟩ ⟨[], 1⟩ ⟨2026, 1, 1, 0, 0, 0⟩ 0 true).1 rfl rfl rfl rfl,
   (C3_amended [("customer_name", Json.str "A"), ("customer_email", Json.str "E"),
      ("customer_address", Json.str "S"), ("total_amount", Json.str "abc"),
      ("items", Json.arr [Json.int 1])] (fun _ => .ok 0)
      ⟨[], 1⟩ ⟨[], 1⟩ ⟨2026, 1, 1, 0, 0, 0⟩ 0 true).2 rfl rfl
      ⟨Json.int 1, [], rfl⟩ rfl rfl⟩

/-- Claim C6 (counterexample): `get_products` with an open connection and a
failing query answers 500 having opened the request's connection and without
closing it — the error path leaks the connection (there is no `finally`). -/
theorem C6_counterexample :
    (get_products (fun _ => .ok 0) false ⟨[], 1⟩).status = 500 ∧
    (get_products (fun _ => .ok 0) false ⟨[], 1⟩).connOpened = true ∧
    (get_products (fun _ => .ok 0) false ⟨[], 1⟩).connClosed = false :=
  ⟨rfl, rfl, rfl⟩

/-- Claim C6 (amended): in every handler the request's connection is closed
before returning exactly when the handler succeeds (status 200); on every
error path that runs after the connection was opened, the handler returns
without closing it. -/
theorem C6_amended (env : ConnEnv) (queryOk insertOk : Bool) (pdb : ProductsDB)
    (odb : OrdersDB) (data : Option Dict) (now : DateTime) :
    ((get_products env queryOk pdb).connClosed = true ↔
      (get_products env queryOk pdb).status = 200) ∧
    ((get_orders env queryOk odb).connClosed = true ↔
      (get_orders env queryOk odb).status = 200) ∧
    ((add_product data env insertOk pdb now).connClosed = true ↔
      (add_product data env insertOk pdb now).status = 200) ∧
    ((create_order data env insertOk odb now).connClosed = true ↔
      (create_order data env insertOk odb now).status = 200) ∧
    ((health_check env).connClosed = true ↔ (health_check env).status = 200) := by
  refine ⟨?_, ?_, ?_, ?_, ?_⟩
  · cases hr : (get_db_connection env).result with
    | error e => simp [get_products, hr]
    | ok c => cases queryOk <;> simp [get_products, hr]
  · cases hr : (get_db_connection env).result with
    | error e => simp [get_orders, hr]
    | ok c =>
      cases queryOk with
      | false => simp [get_orders, hr]
      | true =>
        cases hm : optMapM parseOrderRow (List.insertionSort orderGE odb.rows) with
        | none => simp [get_orders, hr, hm]
        | some outs => simp [get_orders, hr, hm]
  · cases data with
    | none => simp [add_product]
    | some d =>
      cases hg : (!truthyKey d "name" || !truthyKey d "price") with
      | true => simp [add_product, hg]
      | false =>
        cases hr : (get_db_connection env).result with
        | error e => simp [add_product, hg, hr]
        | ok c =>
          cases hf : pyFloat (dictGetD d "price" .null) with
          | none => simp [add_product, hg, hr, hf]
          | some p => cases insertOk <;> simp [add_product, hg, hr, hf]
  · cases data with
    | none => simp [create_order, noDataResult]
    | some d =>
      cases hde : d.isEmpty with
      | true => simp [create_order, hde, noDataResult]
      | false =>
        cases hfm : firstMissing d requiredFields with
        | some f => simp [create_order, hde, hfm]
        | none =>
          cases hit : dictGetD d "items" .null with
          | arr xs =>
            cases xs with
            | nil => simp [create_order, hde, hfm, hit]
            | cons x xs2 =>
              cases hr : (get_db_connection env).result with
              | error e => simp [create_order, hde, hfm, hit, hr]
              | ok c =>
                cases hf : pyFloat (dictGetD d "total_amount" .null) with
                | none => simp [create_order, hde, hfm, hit, hr, hf]
                | some amt => cases insertOk <;> simp [create_order, hde, hfm, hit, hr, hf]
          | null => simp [create_order, hde, hfm, hit]
          | bool b => simp [create_order, hde, hfm, hit]
          | int n => simp [create_order, hde, hfm, hit]
          | str s => simp [create_order, hde, hfm, hit]
          | obj ps => simp [create_order, hde, hfm, hit]
  · cases hr : (get_db_connection env).result with
    | error e => simp [health_check, hr]
    | ok c => simp [health_check, hr]

/-- Claim C9: the product listing is sorted most-recent-first and (on
success) is a permutation of the stored rows; the order listing is sorted
most-recent-first, and every returned order record is a stored row with the
derived `order_date` equal to its creation timestamp rendered as
`YYYY-MM-DD HH:MM:SS`. -/
theorem C9_listing_order_and_date (env : ConnEnv) (queryOk : Bool) (pdb : ProductsDB)
    (odb : OrdersDB) :
    (get_products env queryOk pdb).rows.Pairwise prodGE ∧
    ((get_products env queryOk pdb).status = 200 →
      (get_products env queryOk pdb).rows.Perm pdb.rows) ∧
    (get_orders env queryOk odb).rows.Pairwise outGE ∧
    (∀ o ∈ (get_orders env queryOk odb).rows,
      ∃ r ∈ odb.rows, parseOrderRow r = some o ∧
        o.created_at = r.created_at ∧ o.order_date = mysqlDateFormat r.created_at ∧
        dateShape o.order_date = true) := by
  refine ⟨?_, ?_, ?_, ?_⟩
  · cases hr : (get_db_connection env).result with
    | error e => simp [get_products, hr]
    | ok c =>
      cases queryOk with
      | false => simp [get_products, hr]
      | true =>
        have hrows : (get_products env true pdb).rows
            = List.insertionSort prodGE pdb.rows := by
          simp [get_products, hr]
        rw [hrows]
        exact List.sorted_insertionSort prodGE pdb.rows
  · cases hr : (get_db_connection env).result with
    | error e => intro h; rw [get_products, hr] at h; cases h
    | ok c =>
      cases queryOk with
      | false => intro h; rw [get_products, hr] at h; simp at h
      | true =>
        intro _
        have hrows : (get_products env true pdb).rows
            = List.insertionSort prodGE pdb.rows := by
          simp [get_products, hr]
        rw [hrows]
        exact List.perm_insertionSort prodGE pdb.rows
  · cases hr : (get_db_connection env).result with
    | error e => simp [get_orders, hr]
    | ok c =>
      cases queryOk with
      | false => simp [get_orders, hr]
      | true =>
        cases hm : optMapM parseOrderRow (List.insertionSort orderGE odb.rows) with
        | none => simp [get_orders, hr, hm]
        | some outs =>
          have hrows : (get_orders env true odb).rows = outs := by
            simp [get_orders, hr, hm]
          rw [hrows]
          have hf2 := optMapM_forall2 parseOrderRow hm
          have hsorted : (List.insertionSort orderGE odb.rows).Pairwise orderGE :=
            List.sorted_insertionSort orderGE odb.rows
          refine forall2_pairwise ?_ hf2 hsorted
          intro a b a2 b2 hab ha2b2 hS
          have h1 := (parseOrderRow_fields hab).1
          have h2 := (parseOrderRow_fields ha2b2).1
          rw [outGE, h1, h2]
          exact hS
  · intro o ho
    revert ho
    cases hr : (get_db_connection env).result with
    | error e => intro ho; rw [get_orders, hr] at ho; cases ho
    | ok c =>
      cases queryOk with
      | false => intro ho; rw [get_orders, hr] at ho; simp at ho
      | true =>
        cases hm : optMapM parseOrderRow (List.insertionSort orderGE odb.rows) with
        | none => intro ho; rw [get_orders, hr] at ho; simp [hm] at ho
        | some outs =>
          have hrows : (get_orders env true odb).rows = outs := by
            simp [get_orders, hr, hm]
          rw [hrows]
          intro ho
          obtain ⟨r, hrmem, hro⟩ := forall2_mem_right (optMapM_forall2 parseOrderRow hm) ho
          refine ⟨r, (List.perm_insertionSort orderGE odb.rows).mem_iff.1 hrmem, hro,
            ?_, ?_, ?_⟩
          · exact (parseOrderRow_fields hro).1
          · exact (parseOrderRow_fields hro).2.2.1
          · rw [(parseOrderRow_fields hro).2.2.1]
            exact dateShape_mysql r.created_at

/-- Witness for C9: a two-row catalog inserted out of order comes back as a
permutation, and the single stored order comes back with its parsed items and
its formatted `order_date`. -/
theorem C9_witness :
    (get_products (fun _ => .ok 0) true
      ⟨[{ id := 1, name := Json.str "A", description := Json.str "", price := 5,
          image_url := Json.null, category := Json.str "General",
          stock_quantity := Json.int 10, created_at := ⟨2026, 1, 1, 0, 0, 0⟩ },
        { id := 2, name := Json.str "B", description := Json.str "", price := 6,
          image_url := Json.null, category := Json.str "General",
          stock_quantity := Json.int 10, created_at := ⟨2026, 1, 2, 0, 0, 0⟩ }], 3⟩).rows.Perm
      [{ id := 1, name := Json.str "A", description := Json.str "", price := 5,
         image_url := Json.null, category := Json.str "General",
         stock_quantity := Json.int 10, created_at := ⟨2026, 1, 1, 0, 0, 0⟩ },
       { id := 2, name := Json.str "B", description := Json.str "", price := 6,
         image_url := Json.null, category := Json.str "General",
         stock_quantity := Json.int 10, created_at := ⟨2026, 1, 2, 0, 0, 0⟩ }] ∧
    ∃ r ∈ [({ id := 1, customer_name := Json.str "A", customer_email := Json.str "E",
              customer_phone := Json.str "", customer_address := Json.str "S",
              total_amount := 5, items := "[1]", status := "pending",
              created_at := ⟨2026, 1, 1, 0, 0, 0⟩ } : OrderRow)],
      parseOrderRow r
          = some { id := 1, customer_name := Json.str "A", customer_email := Json.str "E",
                   customer_phone := Json.str "", customer_address := Json.str "S",
                   total_amount := 5, items := Json.arr [Json.int 1], status := "pending",
                   created_at := ⟨2026, 1, 1, 0, 0, 0⟩,
                   order_date := mysqlDateFormat ⟨2026, 1, 1, 0, 0, 0⟩ } ∧
        ({ id := 1, customer_name := Json.str "A", customer_email := Json.str "E",
           customer_phone := Json.str "", customer_address := Json.str "S",
           total_amount := 5, items := Json.arr [Json.int 1], status := "pending",
           created_at := ⟨2026, 1, 1, 0, 0, 0⟩,
           order_date := mysqlDateFormat ⟨2026, 1, 1, 0, 0, 0⟩ } : OrderOut).created_at
          = r.created_at ∧
        ({ id := 1, customer_name := Json.str "A", customer_email := Json.str "E",
           customer_phone := Json.str "", customer_address := Json.str "S",
           total_amount := 5, items := Json.arr [Json.int 1], status := "pending",
           created_at := ⟨2026, 1, 1, 0, 0, 0⟩,
           order_date := mysqlDateFormat ⟨2026, 1, 1, 0, 0, 0⟩ } : OrderOut).order_date
          = mysqlDateFormat r.created_at ∧
        dateShape ({ id := 1, customer_name := Json.str "A",
                     customer_email := Json.str "E", customer_phone := Json.str "",
                     customer_address := Json.str "S", total_amount := 5,
                     items := Json.arr [Json.int 1], status := "pending",
                     created_at := ⟨2026, 1, 1, 0, 0, 0⟩,
                     order_date := mysqlDateFormat ⟨2026, 1, 1, 0, 0, 0⟩ } :
            OrderOut).order_date
          = true :=
  ⟨(C9_listing_order_and_date (fun _ => .ok 0) true
      ⟨[{ id := 1, name := Json.str "A", description := Json.str "", price := 5,
          image_url := Json.null, category := Json.str "General",
          stock_quantity := Json.int 10, created_at := ⟨2026, 1, 1, 0, 0, 0⟩ },
        { id := 2, name := Json.str "B", description := Json.str "", price := 6,
          image_url := Json.null, category := Json.str "General",
          stock_quantity := Json.int 10, created_at := ⟨2026, 1, 2, 0, 0, 0⟩ }], 3⟩
      ⟨[], 1⟩).2.1 rfl,
   (C9_listing_order_and_date (fun _ => .ok 0) true ⟨[], 1⟩
      ⟨[{ id := 1, customer_name := Json.str "A", customer_email := Json.str "E",
          customer_phone := Json.str "", customer_address := Json.str "S",
          total_amount := 5, items := "[1]", status := "pending",
          created_at := ⟨2026, 1, 1, 0, 0, 0⟩ }], 2⟩).2.2.2
      { id := 1, customer_name := Json.str "A", customer_email := Json.str "E",
        customer_phone := Json.str "", customer_address := Json.str "S",
        total_amount := 5, items := Json.arr [Json.int 1], status := "pending",
        created_at := ⟨2026, 1, 1, 0, 0, 0⟩,
        order_date := mysqlDateFormat ⟨2026, 1, 1, 0, 0, 0⟩ }
      (by
        have h9 : (get_orders (fun _ => .ok 0) true
            ⟨[{ id := 1, customer_name := Json.str "A", customer_email := Json.str "E",
                customer_phone := Json.str "", customer_address := Json.str "S",
                total_amount := 5, items := "[1]", status := "pending",
                created_at := ⟨2026, 1, 1, 0, 0, 0⟩ }], 2⟩).rows
            = [{ id := 1, customer_name := Json.str "A", customer_email := Json.str "E",
                 customer_phone := Json.str "", customer_address := Json.str "S",
                 total_amount := 5, items := Json.arr [Json.int 1], status := "pending",
                 created_at := ⟨2026, 1, 1, 0, 0, 0⟩,
                 order_date := mysqlDateFormat ⟨2026, 1, 1, 0, 0, 0⟩ }] := rfl
        rw [h9]
        exact List.mem_singleton.2 rfl)⟩

/-- Claim C2: a valid `createOrder` succeeds with reported status "pending",
and the subsequent `listOrders` succeeds and includes a record whose stored
`items` document parses back to exactly the submitted items list, in order,
with status "pending" (given that the pre-existing rows' documents parse). -/
theorem C2_order_roundtrip
    (d : Dict) (env : ConnEnv) (db : OrdersDB) (now : DateTime)
    (x : Json) (xs : List Json) (c : ConnId) (amt : Rat)
    (hde : d.isEmpty = false)
    (hfm : firstMissing d requiredFields = none)
    (hit : dictGetD d "items" .null = .arr (x :: xs))
    (hc : (get_db_connection env).result = .ok c)
    (hamt : pyFloat (dictGetD d "total_amount" .null) = some amt)
    (hold : ∀ r ∈ db.rows, (loads r.items).isSome = true) :
    (create_order (some d) env true db now).status = 200 ∧
    (create_order (some d) env true db now).respStatus = some "pending" ∧
    (get_orders env true (create_order (some d) env true db now).db).status = 200 ∧
    ∃ o ∈ (get_orders env true (create_order (some d) env true db now).db).rows,
      o.items = Json.arr (x :: xs) ∧ o.status = "pending" := by
  have hco : create_order (some d) env true db now
      = { status := 200, error := none, message := some "Order created successfully",
          order_id := some db.nextId, respStatus := some "pending",
          db := { rows := db.rows ++
                    [{ id := db.nextId,
                       customer_name := dictGetD d "customer_name" .null,
                       customer_email := dictGetD d "customer_email" .null,
                       customer_phone := dictGetD d "customer_phone" (.str ""),
                       customer_address := dictGetD d "customer_address" .null,
                       total_amount := amt,
                       items := dumps (.arr (x :: xs)),
                       status := "pending",
                       created_at := now }],
                  nextId := db.nextId + 1 },
          connOpened := true, connClosed := true } := by
    simp [create_order, hde, hfm, hit, hc, hamt]
  obtain ⟨row, hrowitems, hrowstatus, hdb⟩ :
      ∃ row : OrderRow, row.items = dumps (Json.arr (x :: xs)) ∧ row.status = "pending" ∧
        (create_order (some d) env true db now).db
          = { rows := db.rows ++ [row], nextId := db.nextId + 1 } :=
    ⟨_, rfl, rfl, by rw [hco]⟩
  have hall : ∀ r ∈ List.insertionSort orderGE (db.rows ++ [row]),
      (parseOrderRow r).isSome = true := by
    intro r hr
    rcases List.mem_append.1 ((List.perm_insertionSort orderGE _).mem_iff.1 hr) with h | h
    · exact parseOrderRow_isSome (hold r h)
    · rw [List.mem_singleton.1 h]
      apply parseOrderRow_isSome
      rw [hrowitems, loads_dumps]
      rfl
  obtain ⟨outs, houts⟩ := optMapM_isSome parseOrderRow hall
  have hgo : get_orders env true ((create_order (some d) env true db now).db)
      = { status := 200, error := none, rows := outs,
          connOpened := true, connClosed := true } := by
    rw [hdb]
    simp [get_orders, hc, houts]
  refine ⟨by rw [hco], by rw [hco], by rw [hgo], ?_⟩
  rw [hgo]
  have hmem : row ∈ List.insertionSort orderGE (db.rows ++ [row]) :=
    (List.perm_insertionSort orderGE _).mem_iff.2
      (List.mem_append.2 (Or.inr (List.mem_singleton.2 rfl)))
  obtain ⟨o, ho, hpo⟩ := forall2_mem_left (optMapM_forall2 parseOrderRow houts) hmem
  refine ⟨o, ho, ?_, ?_⟩
  · have h4 := (parseOrderRow_fields hpo).2.2.2
    rw [hrowitems, loads_dumps] at h4
    exact (Option.some_inj.1 h4).symm
  · exact ((parseOrderRow_fields hpo).2.1).trans hrowstatus

/-- Witness for C2: the concrete order of §8 of the spec is created with
status "pending" and listed back with its items parsed to the submitted
list. -/
theorem C2_witness :
    (create_order (some [("customer_name", Json.str "A"), ("customer_email", Json.str "E"),
        ("customer_address", Json.str "S"), ("total_amount", Json.int 19),
        ("items", Json.arr [Json.obj [("id", Json.int 1), ("qty", Json.int 1)]])])
        (fun _ => .ok 0) true ⟨[], 1⟩ ⟨2026, 1, 1, 0, 0, 0⟩).status = 200 ∧
    (create_order (some [("customer_name", Json.str "A"), ("customer_email", Json.str "E"),
        ("customer_address", Json.str "S"), ("total_amount", Json.int 19),
        ("items", Json.arr [Json.obj [("id", Json.int 1), ("qty", Json.int 1)]])])
        (fun _ => .ok 0) true ⟨[], 1⟩ ⟨2026, 1, 1, 0, 0, 0⟩).respStatus = some "pending" ∧
    (get_orders (fun _ => .ok 0) true
      (create_order (some [("customer_name", Json.str "A"), ("customer_email", Json.str "E"),
        ("customer_address", Json.str "S"), ("total_amount", Json.int 19),
        ("items", Json.arr [Json.obj [("id", Json.int 1), ("qty", Json.int 1)]])])
        (fun _ => .ok 0) true ⟨[], 1⟩ ⟨2026, 1, 1, 0, 0, 0⟩).db).status = 200 ∧
    ∃ o ∈ (get_orders (fun _ => .ok 0) true
      (create_order (some [("customer_name", Json.str "A"), ("customer_email", Json.str "E"),
        ("customer_address", Json.str "S"), ("total_amount", Json.int 19),
        ("items", Json.arr [Json.obj [("id", Json.int 1), ("qty", Json.int 1)]])])
        (fun _ => .ok 0) true ⟨[], 1⟩ ⟨2026, 1, 1, 0, 0, 0⟩).db).rows,
      o.items = Json.arr [Json.obj [("id", Json.int 1), ("qty", Json.int 1)]] ∧
      o.status = "pending" :=
  C2_order_roundtrip
    [("customer_name", Json.str "A"), ("customer_email", Json.str "E"),
     ("customer_address", Json.str "S"), ("total_amount", Json.int 19),
     ("items", Json.arr [Json.obj [("id", Json.int 1), ("qty", Json.int 1)]])]
    (fun _ => .ok 0) ⟨[], 1⟩ ⟨2026, 1, 1, 0, 0, 0⟩
    (Json.obj [("id", Json.int 1), ("qty", Json.int 1)]) [] 0 ((19 : Int) : Rat)
    rfl rfl rfl rfl rfl (fun r hr => absurd hr (List.not_mem_nil r))

end ECom
